import Mathlib

/-!
Verification development for the btrfs-diff send-stream processor.

The Go source is embedded shallowly: the `DiffNode` pointer graph becomes a
heap (`Tree`) of nodes addressed by natural-number ids, Go maps become
association lists, Go strings become Lean strings (stream bytes are decoded
one byte per character, which is exact for the ASCII data handled here), and
mutation becomes explicit state passing.  Functions that recurse through the
heap (chain paths, traversal, `addNode`'s merge loop) take a fuel argument;
with enough fuel they compute exactly what the Go functions compute whenever
the Go functions terminate.
-/

set_option maxRecDepth 8192
set_option maxHeartbeats 4000000

namespace BtrfsDiff

/-! ## Association-list helpers (model of Go maps keyed by name or node id) -/

/-- Lookup in an association list (first binding wins, as in a Go map where
keys are unique). -/
def lookupA {α β : Type} [DecidableEq α] : List (α × β) → α → Option β
  | [], _ => none
  | (k, v) :: rest, a => if k = a then some v else lookupA rest a

/-- Insert or replace a binding; a fresh key is appended at the end. -/
def insertA {α β : Type} [DecidableEq α] : List (α × β) → α → β → List (α × β)
  | [], a, b => [(a, b)]
  | (k, v) :: rest, a, b => if k = a then (a, b) :: rest else (k, v) :: insertA rest a b

/-- Remove the binding for a key, if present. -/
def removeA {α β : Type} [DecidableEq α] : List (α × β) → α → List (α × β)
  | [], _ => []
  | (k, v) :: rest, a => if k = a then rest else (k, v) :: removeA rest a

@[simp] theorem lookupA_nil {α β : Type} [DecidableEq α] (a : α) :
    lookupA ([] : List (α × β)) a = none := rfl

@[simp] theorem lookupA_cons {α β : Type} [DecidableEq α] (k : α) (v : β) (rest : List (α × β)) (a : α) :
    lookupA ((k, v) :: rest) a = if k = a then some v else lookupA rest a := rfl

@[simp] theorem lookupA_insertA_self {α β : Type} [DecidableEq α] (l : List (α × β)) (a : α) (b : β) :
    lookupA (insertA l a b) a = some b := by
  induction l with
  | nil => simp [insertA]
  | cons kv rest ih =>
    obtain ⟨k, v⟩ := kv
    by_cases h : k = a <;> simp [insertA, h, ih]

theorem lookupA_insertA_ne {α β : Type} [DecidableEq α] (l : List (α × β)) (a c : α) (b : β)
    (h : a ≠ c) : lookupA (insertA l a b) c = lookupA l c := by
  induction l with
  | nil => simp [insertA, lookupA, h]
  | cons kv rest ih =>
    obtain ⟨k, v⟩ := kv
    by_cases hk : k = a
    · subst hk
      simp [insertA, lookupA, h]
    · simp [insertA, hk, lookupA, ih]

/-! ## Byte and string helpers -/

/-- Little-endian decoding of a byte list (as Go's `binary.LittleEndian`
readers do on the exact-length slices handed to them). -/
def leDec : List Nat → Nat
  | [] => 0
  | b :: rest => b + 256 * leDec rest

/-- Little-endian encoding of `n` into `w` bytes (used to build concrete
test streams). -/
def leEnc (w n : Nat) : List Nat :=
  match w with
  | 0 => []
  | w + 1 => n % 256 :: leEnc w (n / 256)

/-- Decode a byte list into a string, one byte per character.  Go strings are
raw byte sequences; this is exact for ASCII content (all data in this
development) and keeps distinct bytes distinct. -/
def decodeStr (b : List Nat) : String := ⟨b.map Char.ofNat⟩

/-- Encode an ASCII string as its byte list. -/
def strBytes (s : String) : List Nat := s.data.map Char.toNat

/-- Model of Go `strings.Split(path, "/")` on the character list. -/
def splitSlashCh : List Char → List (List Char)
  | [] => [[]]
  | c :: rest =>
    match splitSlashCh rest with
    | [] => [[c]]
    | h :: t => if c = '/' then [] :: h :: t else (c :: h) :: t

/-- Model of Go `strings.Split(path, "/")`. -/
def splitSlash (s : String) : List String := (splitSlashCh s.data).map String.mk

/-- Model of Go `strings.Join(parts, "/")`. -/
def joinSlash : List String → String
  | [] => ""
  | [s] => s
  | s :: rest => s ++ "/" ++ joinSlash rest

/-- Model of Go `strings.HasPrefix`. -/
def hasPrefixStr (s p : String) : Bool := p.data.isPrefixOf s.data

/-- ASCII decimal digit test, as Go's regexp `\d`. -/
def isDigitCh (c : Char) : Bool := '0' ≤ c && c ≤ '9'

/-- Does the pattern `\d+-\d+-\d+` match at the head of `l` (a prefix of the
remaining input)?  Greedy digit runs coincide with the regex semantics here
because a digit run followed by `-` is necessarily maximal. -/
def matchTailNewNode (l : List Char) : Bool :=
  let d1 := l.takeWhile isDigitCh
  let r1 := l.dropWhile isDigitCh
  if d1.isEmpty then false
  else
    match r1 with
    | '-' :: r2 =>
      let d2 := r2.takeWhile isDigitCh
      let r3 := r2.dropWhile isDigitCh
      if d2.isEmpty then false
      else
        match r3 with
        | '-' :: r4 => !(r4.takeWhile isDigitCh).isEmpty
        | _ => false
    | _ => false

/-- Substring search for `o\d+-\d+-\d+` over a character list: the model of
`regexNewNode.MatchString` (Go `regexp.MatchString` is an unanchored,
anywhere-in-the-string match). -/
def matchesNewNodeL : List Char → Bool
  | [] => false
  | c :: rest => (if c = 'o' then matchTailNewNode rest else false) || matchesNewNodeL rest

/-- Model of `regexNewNode.MatchString` on a Go string. -/
def matchesNewNode (s : String) : Bool := matchesNewNodeL s.data

/-- Model of the `ellipsis` helper: truncate to `maxLen` runes with a
trailing `"..."`. -/
def ellipsis (s : String) (maxLen : Nat) : String :=
  if s.data.length ≤ maxLen then s
  else
    let m := if maxLen < 3 then 3 else maxLen
    ⟨s.data.take (m - 3)⟩ ++ "..."

/-- UTF-8 validity of a byte list, as Go's `utf8.Valid`. -/
def utf8ValidAux : Nat → List Nat → Bool
  | _, [] => true
  | 0, _ :: _ => false
  | fuel + 1, b :: rest =>
    if b < 128 then utf8ValidAux fuel rest
    else if 192 ≤ b && b < 224 then
      match rest with
      | c1 :: r => (128 ≤ c1 && c1 < 192) && (194 ≤ b) && utf8ValidAux fuel r
      | [] => false
    else if 224 ≤ b && b < 240 then
      match rest with
      | c1 :: c2 :: r =>
        (128 ≤ c1 && c1 < 192) && (128 ≤ c2 && c2 < 192) &&
        !(b = 224 && c1 < 160) && !(b = 237 && 160 ≤ c1) && utf8ValidAux fuel r
      | _ => false
    else if 240 ≤ b && b < 245 then
      match rest with
      | c1 :: c2 :: c3 :: r =>
        (128 ≤ c1 && c1 < 192) && (128 ≤ c2 && c2 < 192) && (128 ≤ c3 && c3 < 192) &&
        !(b = 240 && c1 < 144) && !(b = 244 && 144 ≤ c1) && utf8ValidAux fuel r
      | _ => false
    else false

/-- Model of Go `utf8.Valid`. -/
def utf8Valid (b : List Nat) : Bool := utf8ValidAux b.length b

/-- Octal rendering, the model of Go's `%o` verb. -/
def octRepr (n : Nat) : String := ⟨(Nat.toDigits 8 n)⟩

/-- Lowercase hexadecimal rendering, the model of Go's `hex.EncodeToString`. -/
def hexRepr (b : List Nat) : String :=
  ⟨b.flatMap (fun x => [(Nat.toDigits 16 (x / 16 % 16)).headD '0',
                        (Nat.toDigits 16 (x % 16)).headD '0'])⟩

/-- Placeholder rendering of a decoded timestamp.  The Go code formats a
`time.Time` with `%s`, whose output depends on the process-local timezone;
it is rendered here as `sec.nsec`.  The only consumer is the `UTIMES` branch
of `processModify`, which is unreachable from the stream loop because the
command table maps `UTIMES` to the Ignore class. -/
def timeRepr (sec nsec : Nat) : String := Nat.repr sec ++ "." ++ Nat.repr nsec

/-! ## Data model (`node.go`) -/

/-- `DiffNodeType`: the closed set of node kinds. -/
inductive NodeType
  | unknown
  | file
  | dir
  | fifo
  | sock
  | symlink
  | node
deriving DecidableEq, Repr

/-- The string constants `DiffNodeTypeUnknown`, `DiffNodeTypeFile`, ... -/
def NodeType.render : NodeType → String
  | .unknown => "UNKNOWN"
  | .file => "FILE"
  | .dir => "DIR"
  | .fifo => "FIFO"
  | .sock => "SOCK"
  | .symlink => "SYMLINK"
  | .node => "NODE"

/-- The `operation` enumeration (`commands.go`), in declaration (= ordinal)
order. -/
inductive Operation
  | opUnspec
  | opIgnore
  | opCreate
  | opModify
  | opDelete
  | opRename
  | opEnd
deriving DecidableEq, Repr

/-- The `names` table: `operation.String()`. -/
def Operation.render : Operation → String
  | .opUnspec => "noop"
  | .opIgnore => "ignored"
  | .opCreate => "added"
  | .opModify => "changed"
  | .opDelete => "deleted"
  | .opRename => "renamed"
  | .opEnd => "END"

/-- `DiffNodeReason`: relation reasons. -/
inductive Reason
  | renameSrc
  | renameDest
  | linkDest
deriving DecidableEq, Repr

/-- The string constants `DiffNodeReasonRenameSrc`, ... -/
def Reason.render : Reason → String
  | .renameSrc => "RENAME_SRC"
  | .renameDest => "RENAME_DEST"
  | .linkDest => "LINK_DEST"

/-- `DiffNode`: one node of the diff tree.  Go pointers to other nodes become
natural-number ids into the enclosing `Tree` heap; the `Children` map becomes
an association list from name to id; `Relations` keeps its order.  Zero
values of the Go struct are the defaults here. -/
structure DiffNode where
  nodeType : NodeType := .unknown
  path : String := ""
  state : Operation := .opUnspec
  relations : List (Nat × Reason) := []
  changes : List String := []
  parent : Option Nat := none
  children : List (String × Nat) := []
  deletedInSnapshot : Bool := false
  lastDataWrittenOffset : Nat := 0
  lastDataWrittenLen : Nat := 0
deriving DecidableEq, Repr

/-- The heap of nodes: the `Diff` value plus the arena realising the Go
pointer graph.  The root always has id `rootId = 0`. -/
structure Tree where
  nodes : List (Nat × DiffNode)
  nextId : Nat
deriving DecidableEq, Repr

/-- The root node's id. -/
def rootId : Nat := 0

/-- Dereference a node pointer. -/
def getNode (t : Tree) (id : Nat) : Option DiffNode := lookupA t.nodes id

/-- Overwrite a node in the heap (Go: mutation through the pointer). -/
def setNode (t : Tree) (id : Nat) (n : DiffNode) : Tree :=
  { t with nodes := insertA t.nodes id n }

/-- Mutate a node in place if it exists. -/
def modifyNode (t : Tree) (id : Nat) (f : DiffNode → DiffNode) : Tree :=
  match getNode t id with
  | none => t
  | some n => setNode t id (f n)

/-- Allocate a fresh node (Go: `&DiffNode{...}`), returning its id. -/
def allocNode (t : Tree) (n : DiffNode) : Tree × Nat :=
  ({ nodes := insertA t.nodes t.nextId n, nextId := t.nextId + 1 }, t.nextId)

/-- The initial tree built by `ProcessBTRFSStream`: a single root of kind
`Dir` with empty name and no children. -/
def initTree : Tree :=
  { nodes := [(rootId, { nodeType := .dir, path := "", children := [] })], nextId := 1 }

@[simp] theorem getNode_setNode_self (t : Tree) (id : Nat) (n : DiffNode) :
    getNode (setNode t id n) id = some n := by
  simp [getNode, setNode]

theorem getNode_setNode_ne (t : Tree) (id j : Nat) (n : DiffNode) (h : id ≠ j) :
    getNode (setNode t id n) j = getNode t j := by
  simp [getNode, setNode, lookupA_insertA_ne _ _ _ _ h]

/-! ## Tree navigation (`node.go`) -/

/-- `GetChainPath`: walk parent pointers, joining names with `/`.  The fuel
bounds the recursion depth; Go would not terminate on a parent cycle. -/
def GetChainPath (t : Tree) : Nat → Nat → String
  | 0, _ => ""
  | fuel + 1, id =>
    match getNode t id with
    | none => ""
    | some n =>
      match n.parent with
      | none => n.path
      | some p => GetChainPath t fuel p ++ "/" ++ n.path

/-- `root()`: climb parent pointers to the topmost ancestor. -/
def rootOfNode (t : Tree) : Nat → Nat → Nat
  | 0, id => id
  | fuel + 1, id =>
    match getNode t id with
    | none => id
    | some n =>
      match n.parent with
      | none => id
      | some p => rootOfNode t fuel p

/-- `isBTRFSTemporaryNode`: the node's parent is non-nil, is the tree's
topmost ancestor as seen from this node, and the node's name contains a
match of `o\d+-\d+-\d+`. -/
def isBTRFSTemporaryNode (t : Tree) (fuel id : Nat) : Bool :=
  match getNode t id with
  | none => false
  | some n =>
    match n.parent with
    | none => false
    | some p => decide (p = rootOfNode t fuel id) && matchesNewNode n.path

/-- `traverse`: the list of node ids visited by the depth-first traversal
(each child is visited, then recursed into; the start node itself is not
visited).  Children sharing between nodes makes repeat visits possible,
exactly as in Go. -/
def traverseIds (t : Tree) : Nat → Nat → List Nat
  | 0, _ => []
  | fuel + 1, id =>
    match getNode t id with
    | none => []
    | some n => n.children.flatMap (fun kv => kv.2 :: traverseIds t fuel kv.2)

/-- `findRelation`: first relation with the given reason. -/
def findRelation (n : DiffNode) (r : Reason) : Option (Nat × Reason) :=
  n.relations.find? (fun rel => rel.2 = r)

/-- `followRenameChainSrc`: follow `RenameSrc` relations to their source. -/
def followRenameChainSrc (t : Tree) : Nat → Nat → Nat
  | 0, id => id
  | fuel + 1, id =>
    match getNode t id with
    | none => id
    | some n =>
      match findRelation n .renameSrc with
      | some (nid, _) => followRenameChainSrc t fuel nid
      | none => id

/-! ## Tree mutation (`node.go`) -/

/-- The inner loop of `mkdirp`: walk/extend the tree along the path
components.  The Go loop computes `createdInSnapshot` from whether the
component is the last one. -/
def mkdirpGo (t : Tree) (cur : Nat) :
    List String → Bool → Bool → Tree × Nat
  | [], _, _ => (t, cur)
  | e :: rest, oldC, newC =>
    match (getNode t cur).bind (fun n => lookupA n.children e) with
    | some ex => mkdirpGo t ex rest oldC newC
    | none =>
      let createdFlag := if rest.isEmpty then newC else oldC
      let st : Operation := if createdFlag then .opCreate else .opUnspec
      let (t1, nid) := allocNode t
        { nodeType := .dir, path := e, state := st, parent := some cur, children := [] }
      let t2 := modifyNode t1 cur (fun n => { n with children := insertA n.children e nid })
      mkdirpGo t2 nid rest oldC newC

/-- `mkdirp`: split the path on `/`, drop a leading empty component, then
walk/extend from the start node.  Missing components are synthesized as
`Dir` nodes whose state depends on the two flags. -/
def mkdirp (t : Tree) (startId : Nat) (path : String)
    (oldNodesAreCreatedInSnapshot newNodesAreCreatedInSnapshot : Bool) : Tree × Nat :=
  let entries := splitSlash path
  let entries := if entries.headD "x" = "" then entries.tail else entries
  mkdirpGo t startId entries oldNodesAreCreatedInSnapshot newNodesAreCreatedInSnapshot

/-- `deleteNode`: find the key mapping to the child by pointer identity and
delete it, clearing the child's parent pointer.  Faithfully to the source,
an empty key is reported as "not found" (the sentinel value doubles as the
miss marker). -/
def deleteNode (t : Tree) (pid cid : Nat) : Option String × Tree :=
  match getNode t pid with
  | none => (some "deleteNode: nil parent", t)
  | some p =>
    match p.children.find? (fun kv => kv.2 = cid) with
    | none => (some "child node not found in parent", t)
    | some (k, _) =>
      if k = "" then (some "child node not found in parent", t)
      else
        let t1 := setNode t pid { p with children := removeA p.children k }
        let t2 := modifyNode t1 cid (fun c => { c with parent := none })
        (none, t2)

/-- `removeFromParent`: detach a node from its parent, if it has one. -/
def removeFromParent (t : Tree) (id : Nat) : Option String × Tree :=
  match getNode t id with
  | none => (none, t)
  | some n =>
    match n.parent with
    | none => (none, t)
    | some p => deleteNode t p id

mutual

/-- `addNode`: attach node `nid` under parent `pid`.  An `Unknown` parent is
promoted to `Dir` first; adding over an existing non-`Deleted` child is an
error (the parent's children map is left unchanged); adding over a `Deleted`
child replaces it, merging the old child's relations and children into the
new node and marking it `deletedInSnapshot`.  The fuel bounds the merge
recursion depth (strictly larger than any depth Go reaches on terminating
runs). -/
def addNode : Nat → Tree → Nat → Nat → Option String × Tree
  | 0, t, _, _ => (some "addNode: out of fuel", t)
  | fuel + 1, t, pid, nid =>
    match getNode t pid, getNode t nid with
    | some p0, some nd0 =>
      let p := if p0.nodeType = .unknown then { p0 with nodeType := .dir } else p0
      let t1 := setNode t pid p
      let existing := lookupA p.children nd0.path
      let dupErr :=
        match existing with
        | some eid =>
          match getNode t1 eid with
          | some e => decide (e.state ≠ .opDelete)
          | none => false
        | none => false
      if dupErr then (some "found existing children node while adding new node", t1)
      else
        let (e1, t2) :=
          match nd0.parent with
          | some op => deleteNode t1 op nid
          | none => (none, t1)
        match e1 with
        | some msg => (some msg, t2)
        | none =>
          let t3 := modifyNode t2 nid (fun x => { x with parent := some pid })
          match existing with
          | none =>
            let t4 := modifyNode t3 pid
              (fun x => { x with children := insertA x.children nd0.path nid })
            (none, t4)
          | some eid =>
            let (e2, t4) := removeFromParent t3 eid
            match e2 with
            | some msg => (some msg, t4)
            | none =>
              let erel := ((getNode t4 eid).map (·.relations)).getD []
              let echildren := ((getNode t4 eid).map (·.children)).getD []
              let t5 := modifyNode t4 nid (fun x => { x with relations := x.relations ++ erel })
              match mergeChildren fuel t5 echildren nid with
              | (some msg, t6) => (some msg, t6)
              | (none, t6) =>
                let t7 := modifyNode t6 nid (fun x => { x with deletedInSnapshot := true })
                let t8 := modifyNode t7 pid
                  (fun x => { x with children := insertA x.children nd0.path nid })
                (none, t8)
    | _, _ => (some "addNode: nil node", t)

/-- The child-moving loop inside `addNode`'s replacement branch: each child
of the replaced node is re-attached under the new node. -/
def mergeChildren : Nat → Tree → List (String × Nat) → Nat → Option String × Tree
  | _, t, [], _ => (none, t)
  | 0, t, _ :: _, _ => (some "mergeChildren: out of fuel", t)
  | fuel + 1, t, (_, cid) :: rest, nid =>
    match addNode fuel t nid cid with
    | (some msg, t1) => (some msg, t1)
    | (none, t1) => mergeChildren fuel t1 rest nid

end

/-! ## Path resolution (`diff.go`) -/

/-- `getNodeByPath`: walk children maps from the root along the path
components (leading empty component dropped); `none` when a component is
missing. -/
def getNodeByPath (t : Tree) (path : String) : Option Nat :=
  let entries := splitSlash path
  let entries := if entries.headD "x" = "" then entries.tail else entries
  entries.foldl
    (fun acc e => acc.bind (fun id => (getNode t id).bind (fun n => lookupA n.children e)))
    (some rootId)

/-- `getLastPathPart`. -/
def getLastPathPart (path : String) : String := (splitSlash path).getLastD ""

/-- `getNodeParentOrMkdir`: resolve (or synthesize via `mkdirp` with both
flags false) the parent directory of a path. -/
def getNodeParentOrMkdir (t : Tree) (path : String) : Tree × Nat :=
  let parts := splitSlash path
  let parentPath := joinSlash parts.dropLast
  if parentPath = "" then (t, rootId)
  else mkdirp t rootId parentPath false false

/-! ## Wire constants

Modelled from the spec: the repository's constants file (defining
`BTRFS_SEND_STREAM_MAGIC` and the `BTRFS_SEND_C_*` / `BTRFS_SEND_A_*`
enumerations) is not among the provided sources; the spec states the magic
is the literal `"btrfs-stream"` and that command/attribute numbering matches
the kernel's `btrfs_send.h` v1 enumeration, reproduced here. -/

def BTRFS_SEND_STREAM_MAGIC : String := "btrfs-stream"

def BTRFS_SEND_C_UNSPEC : Nat := 0
def BTRFS_SEND_C_SUBVOL : Nat := 1
def BTRFS_SEND_C_SNAPSHOT : Nat := 2
def BTRFS_SEND_C_MKFILE : Nat := 3
def BTRFS_SEND_C_MKDIR : Nat := 4
def BTRFS_SEND_C_MKNOD : Nat := 5
def BTRFS_SEND_C_MKFIFO : Nat := 6
def BTRFS_SEND_C_MKSOCK : Nat := 7
def BTRFS_SEND_C_SYMLINK : Nat := 8
def BTRFS_SEND_C_RENAME : Nat := 9
def BTRFS_SEND_C_LINK : Nat := 10
def BTRFS_SEND_C_UNLINK : Nat := 11
def BTRFS_SEND_C_RMDIR : Nat := 12
def BTRFS_SEND_C_SET_XATTR : Nat := 13
def BTRFS_SEND_C_REMOVE_XATTR : Nat := 14
def BTRFS_SEND_C_WRITE : Nat := 15
def BTRFS_SEND_C_CLONE : Nat := 16
def BTRFS_SEND_C_TRUNCATE : Nat := 17
def BTRFS_SEND_C_CHMOD : Nat := 18
def BTRFS_SEND_C_CHOWN : Nat := 19
def BTRFS_SEND_C_UTIMES : Nat := 20
def BTRFS_SEND_C_END : Nat := 21
def BTRFS_SEND_C_UPDATE_EXTENT : Nat := 22
def BTRFS_SEND_C_FALLOCATE : Nat := 23
def BTRFS_SEND_C_FILEATTR : Nat := 24
def BTRFS_SEND_C_ENCODED_WRITE : Nat := 25
def BTRFS_SEND_C_ENABLE_VERITY : Nat := 26
def BTRFS_SEND_C_MAX : Nat := 26

def BTRFS_SEND_A_UNSPEC : Nat := 0
def BTRFS_SEND_A_UUID : Nat := 1
def BTRFS_SEND_A_CTRANSID : Nat := 2
def BTRFS_SEND_A_INO : Nat := 3
def BTRFS_SEND_A_SIZE : Nat := 4
def BTRFS_SEND_A_MODE : Nat := 5
def BTRFS_SEND_A_UID : Nat := 6
def BTRFS_SEND_A_GID : Nat := 7
def BTRFS_SEND_A_RDEV : Nat := 8
def BTRFS_SEND_A_CTIME : Nat := 9
def BTRFS_SEND_A_MTIME : Nat := 10
def BTRFS_SEND_A_ATIME : Nat := 11
def BTRFS_SEND_A_OTIME : Nat := 12
def BTRFS_SEND_A_XATTR_NAME : Nat := 13
def BTRFS_SEND_A_XATTR_DATA : Nat := 14
def BTRFS_SEND_A_PATH : Nat := 15
def BTRFS_SEND_A_PATH_TO : Nat := 16
def BTRFS_SEND_A_PATH_LINK : Nat := 17
def BTRFS_SEND_A_FILE_OFFSET : Nat := 18
def BTRFS_SEND_A_DATA : Nat := 19
def BTRFS_SEND_A_CLONE_UUID : Nat := 20
def BTRFS_SEND_A_CLONE_CTRANSID : Nat := 21
def BTRFS_SEND_A_CLONE_PATH : Nat := 22
def BTRFS_SEND_A_CLONE_OFFSET : Nat := 23
def BTRFS_SEND_A_CLONE_LEN : Nat := 24
def BTRFS_SEND_A_MAX_V1 : Nat := 24

/-- `initCommandsDefinitions`: the command-to-operation table, as a function
on command ids (total on `0..BTRFS_SEND_C_MAX`; ids beyond the maximum are
rejected by `readCommand` before this table is consulted). -/
def cmdOp (ty : Nat) : Operation :=
  if ty = BTRFS_SEND_C_UNSPEC then .opUnspec
  else if ty = BTRFS_SEND_C_SUBVOL then .opCreate
  else if ty = BTRFS_SEND_C_SNAPSHOT then .opCreate
  else if ty = BTRFS_SEND_C_MKFILE then .opCreate
  else if ty = BTRFS_SEND_C_MKDIR then .opCreate
  else if ty = BTRFS_SEND_C_MKNOD then .opCreate
  else if ty = BTRFS_SEND_C_MKFIFO then .opCreate
  else if ty = BTRFS_SEND_C_MKSOCK then .opCreate
  else if ty = BTRFS_SEND_C_SYMLINK then .opCreate
  else if ty = BTRFS_SEND_C_LINK then .opRename
  else if ty = BTRFS_SEND_C_RENAME then .opRename
  else if ty = BTRFS_SEND_C_UNLINK then .opDelete
  else if ty = BTRFS_SEND_C_RMDIR then .opDelete
  else if ty = BTRFS_SEND_C_WRITE then .opModify
  else if ty = BTRFS_SEND_C_CLONE then .opModify
  else if ty = BTRFS_SEND_C_TRUNCATE then .opModify
  else if ty = BTRFS_SEND_C_CHMOD then .opModify
  else if ty = BTRFS_SEND_C_CHOWN then .opModify
  else if ty = BTRFS_SEND_C_UTIMES then .opIgnore
  else if ty = BTRFS_SEND_C_SET_XATTR then .opModify
  else if ty = BTRFS_SEND_C_REMOVE_XATTR then .opModify
  else if ty = BTRFS_SEND_C_END then .opEnd
  else if ty = BTRFS_SEND_C_UPDATE_EXTENT then .opModify
  else if ty = BTRFS_SEND_C_FALLOCATE then .opIgnore
  else if ty = BTRFS_SEND_C_FILEATTR then .opIgnore
  else if ty = BTRFS_SEND_C_ENCODED_WRITE then .opIgnore
  else if ty = BTRFS_SEND_C_ENABLE_VERITY then .opIgnore
  else .opUnspec

/-! ## Attribute decoding (`commands.go`) -/

/-- The possible results of the attribute value converters.  Go returns
`interface{}`; the variant is fully determined by the attribute type. -/
inductive AttrVal
  | u64 (n : Nat)
  | time (sec nsec : Nat)
  | uuid (s : String)
  | path (s : String)
  | pathLink (s : String)
  | str (s : String)
  | bytes (b : List Nat) (isValidUTF8 : Bool)
deriving DecidableEq, Repr

/-- `attrConverterUint64`. -/
def attrConverterUint64 (b : List Nat) : AttrVal := .u64 (leDec b)

/-- `attrConverterPath`: decode the bytes and strip every leading `/`
(`strings.TrimLeft(path, "/")`). -/
def attrConverterPath (b : List Nat) : AttrVal :=
  .path (decodeStr (b.dropWhile (fun x => x = 47)))

/-- `attrConverterPathLink`: decode the bytes unchanged. -/
def attrConverterPathLink (b : List Nat) : AttrVal := .pathLink (decodeStr b)

/-- `attrConverterString`. -/
def attrConverterString (b : List Nat) : AttrVal := .str (decodeStr b)

/-- `attrConverterUUID`. -/
def attrConverterUUID (b : List Nat) : AttrVal := .uuid (hexRepr b)

/-- `attrConverterTime`: u64 seconds then u32 nanoseconds, little endian. -/
def attrConverterTime (b : List Nat) : AttrVal :=
  .time (leDec (b.take 8)) (leDec ((b.drop 8).take 4))

/-- `attrConverterBytes`. -/
def attrConverterBytes (b : List Nat) : AttrVal := .bytes b (utf8Valid b)

/-- `initAttributeDefinitions`: which converter each attribute type uses. -/
def convertAttr (ty : Nat) (b : List Nat) : AttrVal :=
  if ty = BTRFS_SEND_A_UUID ∨ ty = BTRFS_SEND_A_CLONE_UUID then attrConverterUUID b
  else if ty = BTRFS_SEND_A_CTRANSID ∨ ty = BTRFS_SEND_A_INO ∨ ty = BTRFS_SEND_A_SIZE ∨
          ty = BTRFS_SEND_A_MODE ∨ ty = BTRFS_SEND_A_UID ∨ ty = BTRFS_SEND_A_GID ∨
          ty = BTRFS_SEND_A_RDEV ∨ ty = BTRFS_SEND_A_FILE_OFFSET ∨
          ty = BTRFS_SEND_A_CLONE_CTRANSID ∨ ty = BTRFS_SEND_A_CLONE_OFFSET ∨
          ty = BTRFS_SEND_A_CLONE_LEN then attrConverterUint64 b
  else if ty = BTRFS_SEND_A_CTIME ∨ ty = BTRFS_SEND_A_MTIME ∨ ty = BTRFS_SEND_A_ATIME ∨
          ty = BTRFS_SEND_A_OTIME then attrConverterTime b
  else if ty = BTRFS_SEND_A_XATTR_NAME then attrConverterString b
  else if ty = BTRFS_SEND_A_XATTR_DATA ∨ ty = BTRFS_SEND_A_DATA then attrConverterBytes b
  else if ty = BTRFS_SEND_A_PATH ∨ ty = BTRFS_SEND_A_PATH_TO ∨
          ty = BTRFS_SEND_A_CLONE_PATH then attrConverterPath b
  else if ty = BTRFS_SEND_A_PATH_LINK then attrConverterPathLink b
  else .bytes b false

/-- `commandInst`: a decoded command record; `data` is the unread remainder
of its attribute payload. -/
structure Cmd where
  origType : Nat
  data : List Nat
deriving DecidableEq, Repr

/-- `ReadParam`: consume the next attribute from the command payload if its
type matches the expected one.  An attribute type beyond the v1 maximum
would make Go panic indexing the definitions array while formatting the
mismatch error; that is modelled as an error. -/
def ReadParam (cmd : Cmd) (expectedType : Nat) : Except String (AttrVal × Cmd) :=
  if cmd.data.length < 4 then .error "no more parameters"
  else
    let paramType := leDec (cmd.data.take 2)
    if BTRFS_SEND_A_MAX_V1 < paramType then .error "panic: attribute type out of range"
    else if paramType ≠ expectedType then .error "unexpected attribute type"
    else
      let paramLength := leDec ((cmd.data.drop 2).take 2)
      if cmd.data.length < paramLength + 4 then .error "short command param"
      else
        let v := (cmd.data.drop 4).take paramLength
        .ok (convertAttr paramType v, ⟨cmd.origType, cmd.data.drop (4 + paramLength)⟩)

/-! ## Stream reading (`diff.go`, `read.go`) -/

/-- `peekAndDiscard`: exactly `n` bytes from the head of the input or a
short-read error. -/
def peekAndDiscard (input : List Nat) (n : Nat) : Except String (List Nat × List Nat) :=
  if n ≤ input.length then .ok (input.take n, input.drop n)
  else .error "failed to peek on input"

/-- `readCommand`: `u32 size`, `u16 type` (rejected above the maximum),
`u32 crc` (consumed, unverified), `size` bytes of attribute payload. -/
def readCommand (input : List Nat) : Except String (Cmd × List Nat) := do
  let (szB, r1) ← peekAndDiscard input 4
  let sz := leDec szB
  let (tyB, r2) ← peekAndDiscard r1 2
  let ty := leDec tyB
  if BTRFS_SEND_C_MAX < ty then throw "stream contains invalid command type"
  else do
    let (_, r3) ← peekAndDiscard r2 4
    let (dat, r4) ← peekAndDiscard r3 sz
    return (⟨ty, dat⟩, r4)

/-- `ReadString('\x00')`: the bytes up to and including the first NUL, or
`none` at end of input. -/
def readUntilNul : List Nat → Option (List Nat × List Nat)
  | [] => none
  | 0 :: rest => some ([0], rest)
  | b :: rest => (readUntilNul rest).map (fun hr => (b :: hr.1, hr.2))

/-- `validateBTRFSStream`.  The result is the error (if any) paired with the
remaining input.  Faithfully to the source: on a magic mismatch and on a
version mismatch the Go code returns `errors.Wrapf(err, ...)` where `err`
is nil, and `pkg/errors.Wrapf` returns nil for a nil error — so both
"failure" paths in fact return no error, and the magic-mismatch path
returns before the version word is consumed. -/
def validateBTRFSStream (input : List Nat) : Option String × List Nat :=
  match readUntilNul input with
  | none => (some "failed to read stream header", input)
  | some (header, rest) =>
    if header.dropLast ≠ strBytes BTRFS_SEND_STREAM_MAGIC then
      (none, rest)
    else
      match peekAndDiscard rest 4 with
      | .error e => (some e, rest)
      | .ok (verB, rest2) =>
        if leDec verB ≠ 1 then (none, rest2)
        else (none, rest2)

/-! ## Stream processor (`diff.go`) -/

/-- Extract the string carried by a path-like attribute value (the Go code's
`.(string)` type assertion; the variant is guaranteed by `ReadParam`). -/
def AttrVal.asStr : AttrVal → String
  | .path s => s
  | .pathLink s => s
  | .str s => s
  | _ => ""

/-- Extract a `uint64` attribute value. -/
def AttrVal.asU64 : AttrVal → Nat
  | .u64 n => n
  | _ => 0

/-- Extract a bytes attribute value. -/
def AttrVal.asBytes : AttrVal → List Nat
  | .bytes b _ => b
  | _ => []

/-- Is a bytes attribute valid UTF-8 (the `bytesData.isUTF8` field)? -/
def AttrVal.asBytesUTF8 : AttrVal → Bool
  | .bytes _ v => v
  | _ => false

/-- `bytesData.String()`. -/
def bytesDataRender (b : List Nat) (valid : Bool) : String :=
  if valid then ellipsis (decodeStr b) 32
  else "bytes:len=" ++ Nat.repr b.length

/-- 2^64: Go `uint64` arithmetic wraps at this modulus. -/
def U64MOD : Nat := 18446744073709551616

/-- The write change descriptor `fmt.Sprintf("write:offset=%d:data_len=%d", o, l)`. -/
def mkWrite (o l : Nat) : String :=
  "write:offset=" ++ Nat.repr o ++ ":data_len=" ++ Nat.repr l

/-- The write/update-extent body shared by `processModify`'s `WRITE` and
`UPDATE_EXTENT` cases: coalesce with the previous change when it is a write
and the offsets are contiguous, then append the descriptor and update the
transient offset/length fields. -/
def applyWrite (node : DiffNode) (offset dataLen0 : Nat) : DiffNode :=
  let merge :=
    node.changes.length > 0 &&
    hasPrefixStr (node.changes.getLastD "") "write" &&
    decide ((node.lastDataWrittenOffset + node.lastDataWrittenLen) % U64MOD = offset)
  let off1 := if merge then node.lastDataWrittenOffset else offset
  let len1 := if merge then (dataLen0 + node.lastDataWrittenLen) % U64MOD else dataLen0
  let ch1 := if merge then node.changes.dropLast else node.changes
  let nt := if node.nodeType = .unknown then .file else node.nodeType
  { node with
    nodeType := nt
    changes := ch1 ++ [mkWrite off1 len1]
    lastDataWrittenOffset := off1
    lastDataWrittenLen := len1 }

/-- `processModify`: resolve or synthesize the node at `path`, set its state
to `Modified` unless it is already `Created`, then apply the per-command
change.  `cmd` is the command with its `PATH` attribute already consumed. -/
def processModify (fuel : Nat) (t : Tree) (path : String) (cmd : Cmd) :
    Option String × Tree :=
  let resolved : Option String × Tree × Nat :=
    match getNodeByPath t path with
    | some nid => (none, t, nid)
    | none =>
      let (t1, pid) := getNodeParentOrMkdir t path
      let (t2, nid) := allocNode t1
        { nodeType := .unknown, path := getLastPathPart path, children := [] }
      match addNode fuel t2 pid nid with
      | (some e, t3) => (some e, t3, nid)
      | (none, t3) => (none, t3, nid)
  match resolved with
  | (some e, t1, _) => (some e, t1)
  | (none, t1, nid) =>
    let t2 := modifyNode t1 nid
      (fun n => if n.state ≠ .opCreate then { n with state := .opModify } else n)
    if cmd.origType = BTRFS_SEND_C_WRITE then
      match ReadParam cmd BTRFS_SEND_A_FILE_OFFSET with
      | .error e => (some e, t2)
      | .ok (offV, c1) =>
        match ReadParam c1 BTRFS_SEND_A_DATA with
        | .error e => (some e, t2)
        | .ok (dataV, _) =>
          (none, modifyNode t2 nid (fun n => applyWrite n offV.asU64 dataV.asBytes.length))
    else if cmd.origType = BTRFS_SEND_C_UPDATE_EXTENT then
      match ReadParam cmd BTRFS_SEND_A_FILE_OFFSET with
      | .error e => (some e, t2)
      | .ok (offV, c1) =>
        match ReadParam c1 BTRFS_SEND_A_SIZE with
        | .error e => (some e, t2)
        | .ok (sizeV, _) =>
          (none, modifyNode t2 nid (fun n => applyWrite n offV.asU64 sizeV.asU64))
    else if cmd.origType = BTRFS_SEND_C_TRUNCATE then
      match ReadParam cmd BTRFS_SEND_A_SIZE with
      | .error e => (some e, t2)
      | .ok (sizeV, _) =>
        (none, modifyNode t2 nid (fun n =>
          { n with
            nodeType := if n.nodeType = .unknown then .file else n.nodeType,
            changes := n.changes ++ ["truncate:size=" ++ Nat.repr sizeV.asU64] }))
    else if cmd.origType = BTRFS_SEND_C_UTIMES then
      match ReadParam cmd BTRFS_SEND_A_ATIME with
      | .error e => (some e, t2)
      | .ok (aV, c1) =>
        match ReadParam c1 BTRFS_SEND_A_MTIME with
        | .error e => (some e, t2)
        | .ok (mV, c2) =>
          match ReadParam c2 BTRFS_SEND_A_CTIME with
          | .error e => (some e, t2)
          | .ok (cV, _) =>
            let tr : AttrVal → String := fun v =>
              match v with
              | .time s ns => timeRepr s ns
              | _ => ""
            (none, modifyNode t2 nid (fun n =>
              { n with changes := n.changes ++
                ["utime:atime=" ++ tr aV ++ ",mtime=" ++ tr mV ++ ",ctime=" ++ tr cV] }))
    else if cmd.origType = BTRFS_SEND_C_CHMOD then
      match ReadParam cmd BTRFS_SEND_A_MODE with
      | .error e => (some e, t2)
      | .ok (modeV, _) =>
        (none, modifyNode t2 nid (fun n =>
          { n with changes := n.changes ++ ["chmod:mode=" ++ octRepr modeV.asU64] }))
    else if cmd.origType = BTRFS_SEND_C_CHOWN then
      match ReadParam cmd BTRFS_SEND_A_UID with
      | .error e => (some e, t2)
      | .ok (uidV, c1) =>
        match ReadParam c1 BTRFS_SEND_A_GID with
        | .error e => (some e, t2)
        | .ok (gidV, _) =>
          (none, modifyNode t2 nid (fun n =>
            { n with changes := n.changes ++
              ["chown:uid=" ++ Nat.repr uidV.asU64 ++ ",gid=" ++ Nat.repr gidV.asU64] }))
    else if cmd.origType = BTRFS_SEND_C_SET_XATTR then
      match ReadParam cmd BTRFS_SEND_A_XATTR_NAME with
      | .error e => (some e, t2)
      | .ok (nameV, c1) =>
        match ReadParam c1 BTRFS_SEND_A_XATTR_DATA with
        | .error e => (some e, t2)
        | .ok (dataV, _) =>
          (none, modifyNode t2 nid (fun n =>
            { n with changes := n.changes ++
              ["set_xattr:name=" ++ nameV.asStr ++ ",data=" ++
               bytesDataRender dataV.asBytes dataV.asBytesUTF8] }))
    else if cmd.origType = BTRFS_SEND_C_REMOVE_XATTR then
      match ReadParam cmd BTRFS_SEND_A_XATTR_NAME with
      | .error e => (some e, t2)
      | .ok (nameV, _) =>
        (none, modifyNode t2 nid (fun n =>
          { n with changes := n.changes ++ ["remove_xattr:name=" ++ nameV.asStr] }))
    else (some "unhandled modify command", t2)

/-- `processCreate`: fail on an existing node, otherwise create the node
(`mkdirp` for `MKDIR`, a fresh child otherwise); a `SYMLINK` additionally
consumes `INO` and `PATH_LINK` and records a `LinkDest` relation, allocating
an unattached placeholder target when the destination is not in the tree.
`cmd` has its `PATH` attribute already consumed. -/
def processCreate (fuel : Nat) (t : Tree) (path : String) (cmd : Cmd) :
    Option String × Tree :=
  match getNodeByPath t path with
  | some _ => (some "found existing node in tree while processing create operation", t)
  | none =>
    let nodeTypeOpt : Option NodeType :=
      if cmd.origType = BTRFS_SEND_C_MKFILE then some .file
      else if cmd.origType = BTRFS_SEND_C_MKDIR then some .dir
      else if cmd.origType = BTRFS_SEND_C_SYMLINK then some .symlink
      else if cmd.origType = BTRFS_SEND_C_MKNOD then some .node
      else if cmd.origType = BTRFS_SEND_C_MKFIFO then some .fifo
      else if cmd.origType = BTRFS_SEND_C_MKSOCK then some .sock
      else none
    match nodeTypeOpt with
    | none => (some "unsupported command for create operation", t)
    | some nodeType =>
      let made : Option String × Tree × Nat :=
        if nodeType = .dir then
          let (t1, nid) := mkdirp t rootId path false true
          (none, t1, nid)
        else
          let (t1, pid) := getNodeParentOrMkdir t path
          let (t2, nid) := allocNode t1
            { nodeType := nodeType, path := getLastPathPart path, state := .opCreate }
          match addNode fuel t2 pid nid with
          | (some e, t3) => (some e, t3, nid)
          | (none, t3) => (none, t3, nid)
      match made with
      | (some e, t1, _) => (some e, t1)
      | (none, t1, nid) =>
        if cmd.origType = BTRFS_SEND_C_SYMLINK then
          match ReadParam cmd BTRFS_SEND_A_INO with
          | .error e => (some e, t1)
          | .ok (_, c1) =>
            match ReadParam c1 BTRFS_SEND_A_PATH_LINK with
            | .error e => (some e, t1)
            | .ok (linkV, _) =>
              let pathLink := linkV.asStr
              let dest : Tree × Nat :=
                match getNodeByPath t1 pathLink with
                | some d => (t1, d)
                | none =>
                  allocNode t1 { nodeType := .unknown, path := pathLink, children := [] }
              let (t2, destId) := dest
              (none, modifyNode t2 nid
                (fun n => { n with relations := n.relations ++ [(destId, .linkDest)] }))
        else (none, t1)

/-- `processDelete`: resolve or synthesize the node, fix its kind for
`RMDIR`, mark it `Deleted` and `deletedInSnapshot`; then, if the node's
parent's name contains a match of the placeholder pattern, follow the
parent's `RenameSrc` chain to an anchor and either merge with the anchor's
same-named child (dropping this node from the tree) or move the node under
the anchor. -/
def processDelete (fuel : Nat) (t : Tree) (path : String) (origType : Nat) :
    Option String × Tree :=
  let resolved : Option String × Tree × Nat :=
    match getNodeByPath t path with
    | some nid => (none, t, nid)
    | none =>
      let (t1, nid) := allocNode t
        { nodeType := .unknown, path := getLastPathPart path, children := [] }
      let (t2, pid) := getNodeParentOrMkdir t1 path
      match addNode fuel t2 pid nid with
      | (some e, t3) => (some e, t3, nid)
      | (none, t3) => (none, t3, nid)
  match resolved with
  | (some e, t1, _) => (some e, t1)
  | (none, t1, nid) =>
    let t2 := modifyNode t1 nid (fun n =>
      if n.nodeType = .unknown ∧ origType = BTRFS_SEND_C_RMDIR then
        { n with nodeType := .dir } else n)
    let t3 := modifyNode t2 nid (fun n =>
      { n with state := .opDelete, deletedInSnapshot := true })
    match getNode t3 nid with
    | none => (some "panic: nil pointer dereference", t3)
    | some n =>
      match n.parent with
      | none => (some "panic: nil pointer dereference", t3)
      | some pid =>
        match getNode t3 pid with
        | none => (some "panic: nil pointer dereference", t3)
        | some pn =>
          if matchesNewNode pn.path then
            let anchor := followRenameChainSrc t3 fuel pid
            match getNode t3 anchor with
            | none => (none, t3)
            | some a =>
              match lookupA a.children n.path with
              | some inId =>
                let t4 := modifyNode t3 inId
                  (fun m => { m with deletedInSnapshot := true })
                let t5 :=
                  if origType = BTRFS_SEND_C_RMDIR then
                    modifyNode t4 inId (fun m => { m with nodeType := .dir })
                  else t4
                removeFromParent t5 nid
              | none => addNode fuel t3 anchor nid
          else (none, t3)

/-- `processRenameOrLink`: resolve the source (synthesizing a fake one for a
non-placeholder `from` that is missing, attached under the destination's
parent for `RENAME`), capture its kind, relations and a shallow copy of its
children, run the delete path on the source for `RENAME`, record a
`RenameSrc`/`LinkDest` relation unless `from` is a placeholder, then attach
a fresh `Created` destination node carrying the captured data and record the
reverse `RenameDest` relation for `RENAME`. -/
def processRenameOrLink (fuel : Nat) (t : Tree) (from_ to_ : String) (origType : Nat) :
    Option String × Tree :=
  let fromIsNew := matchesNewNode from_
  let srcRes : Option String × Tree × Option Nat :=
    match getNodeByPath t from_ with
    | some s => (none, t, some s)
    | none =>
      if fromIsNew then (none, t, none)
      else
        let (t1, fid) := allocNode t
          { nodeType := .unknown, path := getLastPathPart from_, children := [] }
        if origType = BTRFS_SEND_C_RENAME then
          let (t2, pid) := getNodeParentOrMkdir t1 to_
          match addNode fuel t2 pid fid with
          | (some e, t3) => (some e, t3, none)
          | (none, t3) => (none, t3, some fid)
        else (none, t1, some fid)
  match srcRes with
  | (some e, t1, _) => (some e, t1)
  | (none, t1, srcId) =>
    let captured : NodeType × List (Nat × Reason) × List (String × Nat) :=
      match srcId.bind (getNode t1) with
      | some sn => (sn.nodeType, sn.relations, sn.children)
      | none => (.unknown, [], [])
    let (nodeType, relations0, childrenCopy) := captured
    let delRes : Option String × Tree :=
      match srcId with
      | some _ =>
        if origType = BTRFS_SEND_C_RENAME then processDelete fuel t1 from_ origType
        else (none, t1)
      | none => (none, t1)
    match delRes with
    | (some e, t2) => (some e, t2)
    | (none, t2) =>
      let relations1 :=
        match srcId with
        | some s =>
          if fromIsNew then relations0
          else if origType = BTRFS_SEND_C_RENAME then relations0 ++ [(s, Reason.renameSrc)]
          else if origType = BTRFS_SEND_C_LINK then relations0 ++ [(s, Reason.linkDest)]
          else relations0
        | none => relations0
      let (t3, pid) := getNodeParentOrMkdir t2 to_
      let (t4, toId) := allocNode t3
        { nodeType := nodeType, path := getLastPathPart to_, relations := relations1,
          children := childrenCopy, state := .opCreate }
      match addNode fuel t4 pid toId with
      | (some e, t5) => (some e, t5)
      | (none, t5) =>
        let t6 :=
          match srcId with
          | some s =>
            if origType = BTRFS_SEND_C_RENAME then
              modifyNode t5 s
                (fun sn => { sn with relations := sn.relations ++ [(toId, Reason.renameDest)] })
            else t5
          | none => t5
        (none, t6)

/-- The result of one iteration of the `ProcessBTRFSStream` loop body. -/
inductive StepRes
  | cont (t : Tree)
  | stop (t : Tree)
deriving DecidableEq, Repr

/-- The body of the `ProcessBTRFSStream` loop: dispatch one decoded command
on its operation class (and, in the default branch, on its original type),
exactly mirroring the Go switch. -/
def stepCommand (fuel : Nat) (t : Tree) (cmd : Cmd) : Except String StepRes :=
  match cmdOp cmd.origType with
  | .opUnspec => .error "unsupported command"
  | .opIgnore => .ok (.cont t)
  | .opEnd => .ok (.stop t)
  | .opRename => do
    let (pathV, c1) ← ReadParam cmd BTRFS_SEND_A_PATH
    if cmd.origType = BTRFS_SEND_C_RENAME then do
      let (toV, _) ← ReadParam c1 BTRFS_SEND_A_PATH_TO
      match processRenameOrLink fuel t pathV.asStr toV.asStr cmd.origType with
      | (some e, _) => throw e
      | (none, t1) => return .cont t1
    else if cmd.origType = BTRFS_SEND_C_LINK then do
      let (fromV, _) ← ReadParam c1 BTRFS_SEND_A_PATH_LINK
      match processRenameOrLink fuel t fromV.asStr pathV.asStr cmd.origType with
      | (some e, _) => throw e
      | (none, t1) => return .cont t1
    else throw "invalid command for rename"
  | .opDelete => do
    let (pathV, _) ← ReadParam cmd BTRFS_SEND_A_PATH
    match processDelete fuel t pathV.asStr cmd.origType with
    | (some e, _) => throw e
    | (none, t1) => return .cont t1
  | .opCreate | .opModify =>
    if cmd.origType = BTRFS_SEND_C_SNAPSHOT ∨ cmd.origType = BTRFS_SEND_C_SUBVOL then do
      let (_, c1) ← ReadParam cmd BTRFS_SEND_A_PATH
      let (_, c2) ← ReadParam c1 BTRFS_SEND_A_UUID
      let (_, c3) ← ReadParam c2 BTRFS_SEND_A_CTRANSID
      if cmd.origType = BTRFS_SEND_C_SNAPSHOT then do
        let (_, c4) ← ReadParam c3 BTRFS_SEND_A_CLONE_UUID
        let (_, _) ← ReadParam c4 BTRFS_SEND_A_CLONE_CTRANSID
        return .cont t
      else return .cont t
    else if cmd.origType = BTRFS_SEND_C_CLONE then .error "unsupported command"
    else do
      let (pathV, c1) ← ReadParam cmd BTRFS_SEND_A_PATH
      if cmd.origType = BTRFS_SEND_C_MKFILE ∨ cmd.origType = BTRFS_SEND_C_MKDIR ∨
         cmd.origType = BTRFS_SEND_C_SYMLINK ∨ cmd.origType = BTRFS_SEND_C_MKNOD ∨
         cmd.origType = BTRFS_SEND_C_MKFIFO ∨ cmd.origType = BTRFS_SEND_C_MKSOCK then
        match processCreate fuel t pathV.asStr c1 with
        | (some e, _) => throw e
        | (none, t1) => return .cont t1
      else if cmd.origType = BTRFS_SEND_C_WRITE ∨ cmd.origType = BTRFS_SEND_C_UPDATE_EXTENT ∨
              cmd.origType = BTRFS_SEND_C_TRUNCATE ∨ cmd.origType = BTRFS_SEND_C_CHMOD ∨
              cmd.origType = BTRFS_SEND_C_CHOWN ∨ cmd.origType = BTRFS_SEND_C_SET_XATTR ∨
              cmd.origType = BTRFS_SEND_C_REMOVE_XATTR ∨ cmd.origType = BTRFS_SEND_C_UTIMES then
        match processModify fuel t pathV.asStr c1 with
        | (some e, _) => throw e
        | (none, t1) => return .cont t1
      else throw "unhandled command"

/-- The `ProcessBTRFSStream` loop: read a command, dispatch it, continue
until `END`.  The iteration count is bounded by the remaining input length
(every command consumes at least ten bytes). -/
def processLoop (fuel : Nat) : Nat → Tree → List Nat → Except String Tree
  | 0, _, _ => .error "out of fuel"
  | iters + 1, t, input =>
    match readCommand input with
    | .error e => .error e
    | .ok (cmd, rest) =>
      match stepCommand fuel t cmd with
      | .error e => .error e
      | .ok (.stop t1) => .ok t1
      | .ok (.cont t1) => processLoop fuel iters t1 rest

/-- `ProcessBTRFSStream`: validate the header, then drain commands into the
diff tree.  The fuel handed to the tree operations exceeds any recursion
depth reachable from an input of this length (each node in the tree costs at
least ten stream bytes), so on inputs where Go terminates the model computes
the same tree. -/
def ProcessBTRFSStream (input : List Nat) : Except String Tree :=
  match validateBTRFSStream input with
  | (some e, _) => .error e
  | (none, rest) => processLoop (input.length + 2) (rest.length + 1) initTree rest

/-! ## Output projection (`diff.go`, `node.go`) -/

/-- `shouldPrintNode`: not a temporary node, and state is one of `Created`,
`Modified`, `Deleted`. -/
def shouldPrintNode (t : Tree) (fuel id : Nat) : Bool :=
  match getNode t id with
  | none => false
  | some n =>
    if isBTRFSTemporaryNode t fuel id then false
    else n.state = .opCreate || n.state = .opModify || n.state = .opDelete

/-- `DiffJSONStruct`, holding node ids per bucket. -/
structure DiffJSONStruct where
  added : List Nat := []
  changed : List Nat := []
  deleted : List Nat := []
deriving DecidableEq, Repr

/-- The per-node body of `GetDiffStruct`'s traversal callback. -/
def diffStructVisit (t : Tree) (fuel : Nat) (ign : String → Bool)
    (s : DiffJSONStruct) (id : Nat) : DiffJSONStruct :=
  match getNode t id with
  | none => s
  | some n =>
    if ign (GetChainPath t fuel id) then s
    else if !(shouldPrintNode t fuel id) then s
    else
      let s1 :=
        if n.state = .opCreate then { s with added := s.added ++ [id] }
        else if n.state = .opDelete then { s with deleted := s.deleted ++ [id] }
        else { s with changed := s.changed ++ [id] }
      if n.deletedInSnapshot && n.state ≠ .opDelete then
        { s1 with deleted := s1.deleted ++ [id] }
      else s1

/-- `GetDiffStruct`: traverse the tree, bucketing visible nodes into added /
changed / deleted, with the shadow emit into deleted for nodes deleted in
this snapshot whose state is not `Deleted`. -/
def GetDiffStruct (t : Tree) (ign : String → Bool) (fuel : Nat) : DiffJSONStruct :=
  (traverseIds t fuel rootId).foldl (diffStructVisit t fuel ign) {}

/-- `DiffNode.String()`: the pretty form of one visible node. -/
def nodeString (t : Tree) (fuel id : Nat) : String :=
  match getNode t id with
  | none => ""
  | some n =>
    let p0 := GetChainPath t fuel id
    let p := if p0 = "" then "/" else p0
    let head := "[" ++ n.nodeType.render ++ "][" ++ n.state.render ++ "]"
    let rels := n.relations.map
      (fun r => "[rel=" ++ GetChainPath t fuel r.1 ++ ":" ++ r.2.render ++ "]")
    let chs := n.changes.map (fun c => "[change=" ++ c ++ "]")
    joinParts (head :: p :: (rels ++ chs))
where
  joinParts : List String → String
    | [] => ""
    | [s] => s
    | s :: rest => s ++ " " ++ joinParts rest

/-- `DiffNode.StringForDeleted()`: the shadow deleted line. -/
def stringForDeleted (t : Tree) (fuel id : Nat) : String :=
  match getNode t id with
  | none => ""
  | some n =>
    let p0 := GetChainPath t fuel id
    let p := if p0 = "" then "/" else p0
    "[" ++ n.nodeType.render ++ "][" ++ Operation.opDelete.render ++ "]" ++ " " ++ p

/-- The per-node body of `Diff.print`'s traversal callback, collecting the
lines `info` would emit. -/
def printVisit (t : Tree) (fuel : Nat) (ign : String → Bool)
    (acc : List String) (id : Nat) : List String :=
  match getNode t id with
  | none => acc
  | some n =>
    if ign (GetChainPath t fuel id) then acc
    else
      let acc1 := if shouldPrintNode t fuel id then acc ++ [nodeString t fuel id] else acc
      if n.deletedInSnapshot && n.state ≠ .opDelete then
        acc1 ++ [stringForDeleted t fuel id]
      else acc1

/-- `Diff.print`: the pretty-output lines (with `InfoMode` on, its default). -/
def printLines (t : Tree) (ign : String → Bool) (fuel : Nat) : List String :=
  "=== Tree ===" :: (traverseIds t fuel rootId).foldl (printVisit t fuel ign) []

/-- The declared ordinal of an operation state (its serialized JSON form). -/
def Operation.ordinal : Operation → Nat
  | .opUnspec => 0
  | .opIgnore => 1
  | .opCreate => 2
  | .opModify => 3
  | .opDelete => 4
  | .opRename => 5
  | .opEnd => 6

/-- `DiffNodeJSON` / `DiffNodeRelationJSON`: the serialized form of one
node — node type, chain path, state ordinal, relation (path, reason) pairs,
changes. -/
structure DiffNodeJSON where
  nodeType : String
  path : String
  state : Nat
  relations : List (String × String)
  changes : List String
deriving DecidableEq, Repr

/-- `DiffNode.MarshalJSON`: project a node to its serialized fields. -/
def nodeJSON (t : Tree) (fuel id : Nat) : DiffNodeJSON :=
  match getNode t id with
  | none => ⟨"", "", 0, [], []⟩
  | some n =>
    ⟨n.nodeType.render, GetChainPath t fuel id, n.state.ordinal,
     n.relations.map (fun r => (GetChainPath t fuel r.1, r.2.render)),
     n.changes⟩

/-! ## Concrete streams used to settle the claims -/

/-- One encoded attribute: `u16 type`, `u16 length`, value bytes. -/
def attrBytes (ty : Nat) (v : List Nat) : List Nat :=
  leEnc 2 ty ++ leEnc 2 v.length ++ v

/-- One encoded command record: `u32 size`, `u16 type`, `u32 crc`, payload. -/
def cmdBytes (ty : Nat) (data : List Nat) : List Nat :=
  leEnc 4 data.length ++ leEnc 2 ty ++ leEnc 4 0 ++ data

/-- The valid stream header: magic, NUL, version 1. -/
def streamHeader : List Nat :=
  strBytes BTRFS_SEND_STREAM_MAGIC ++ [0] ++ leEnc 4 1

/-- An encoded `END` command. -/
def endCmd : List Nat := cmdBytes BTRFS_SEND_C_END []

/-- An encoded `PATH` attribute. -/
def pathAttr (p : String) : List Nat := attrBytes BTRFS_SEND_A_PATH (strBytes p)

/-- A stream whose header magic is wrong (`"nope"`), followed by a valid
`END` command. -/
def c1BadMagicStream : List Nat := strBytes "nope" ++ [0] ++ endCmd

/-- A stream with the correct magic but version word 2, followed by `END`. -/
def c1BadVersionStream : List Nat :=
  strBytes BTRFS_SEND_STREAM_MAGIC ++ [0] ++ leEnc 4 2 ++ endCmd

/-- A 12-byte encoded timestamp attribute value. -/
def timeBytes (sec nsec : Nat) : List Nat := leEnc 8 sec ++ leEnc 4 nsec

/-- A stream containing one `UTIMES` command addressed at path `g`. -/
def c2Stream : List Nat :=
  streamHeader ++
  cmdBytes BTRFS_SEND_C_UTIMES
    (pathAttr "g" ++ attrBytes BTRFS_SEND_A_ATIME (timeBytes 1 0) ++
     attrBytes BTRFS_SEND_A_MTIME (timeBytes 2 0) ++
     attrBytes BTRFS_SEND_A_CTIME (timeBytes 3 0)) ++
  endCmd

/-- `MKFILE a/x; UNLINK a/x; RENAME x -> a/b; END`: produces a node at
`/a/x` with `deleted_in_snapshot = true` and state `Unspecified`. -/
def c3Stream : List Nat :=
  streamHeader ++
  cmdBytes BTRFS_SEND_C_MKFILE (pathAttr "a/x") ++
  cmdBytes BTRFS_SEND_C_UNLINK (pathAttr "a/x") ++
  cmdBytes BTRFS_SEND_C_RENAME
    (pathAttr "x" ++ attrBytes BTRFS_SEND_A_PATH_TO (strBytes "a/b")) ++
  endCmd

/-- `MKDIR d/photo1-2-3; MKFILE d/photo1-2-3/x; UNLINK d/photo1-2-3/x; END`:
the deleted node's parent is a non-root node whose name merely contains a
placeholder-shaped substring. -/
def c4Stream : List Nat :=
  streamHeader ++
  cmdBytes BTRFS_SEND_C_MKDIR (pathAttr "d/photo1-2-3") ++
  cmdBytes BTRFS_SEND_C_MKFILE (pathAttr "d/photo1-2-3/x") ++
  cmdBytes BTRFS_SEND_C_UNLINK (pathAttr "d/photo1-2-3/x") ++
  endCmd

/-- `MKFILE dir/sub; RENAME dir -> newdir; END`: the rename hands a shallow
copy of `dir`'s children to `newdir`. -/
def c5Stream : List Nat :=
  streamHeader ++
  cmdBytes BTRFS_SEND_C_MKFILE (pathAttr "dir/sub") ++
  cmdBytes BTRFS_SEND_C_RENAME
    (pathAttr "dir" ++ attrBytes BTRFS_SEND_A_PATH_TO (strBytes "newdir")) ++
  endCmd

/-- `SYMLINK s` with relative link target `file`; `END`. -/
def c9Stream : List Nat :=
  streamHeader ++
  cmdBytes BTRFS_SEND_C_SYMLINK
    (pathAttr "s" ++ attrBytes BTRFS_SEND_A_INO (leEnc 8 1) ++
     attrBytes BTRFS_SEND_A_PATH_LINK (strBytes "file")) ++
  endCmd

/-- `UNLINK o1-2-3; REMOVE_XATTR o1-2-3; END`: leaves a temporary-named node
at the root with `deleted_in_snapshot = true` and state `Modified`. -/
def c10Stream : List Nat :=
  streamHeader ++
  cmdBytes BTRFS_SEND_C_UNLINK (pathAttr "o1-2-3") ++
  cmdBytes BTRFS_SEND_C_REMOVE_XATTR
    (pathAttr "o1-2-3" ++ attrBytes BTRFS_SEND_A_XATTR_NAME (strBytes "a")) ++
  endCmd

/-- The ignore predicate corresponding to passing no `--ignore` regexes. -/
def noIgnore : String → Bool := fun _ => false

/-- The tree produced by the `UTIMES` stream. -/
def c2Result : Tree := (ProcessBTRFSStream c2Stream).toOption.getD initTree

/-- The tree produced by the C3 stream. -/
def c3Result : Tree := (ProcessBTRFSStream c3Stream).toOption.getD initTree

/-- The tree produced by the C4 stream. -/
def c4Result : Tree := (ProcessBTRFSStream c4Stream).toOption.getD initTree

/-- The tree produced by the C5 stream. -/
def c5Result : Tree := (ProcessBTRFSStream c5Stream).toOption.getD initTree

/-- The tree produced by the C9 stream. -/
def c9Result : Tree := (ProcessBTRFSStream c9Stream).toOption.getD initTree

/-- The tree produced by the C10 stream. -/
def c10Result : Tree := (ProcessBTRFSStream c10Stream).toOption.getD initTree

/-- Witness tree for the shadow-emit theorem: a root with one `Modified`
child marked `deleted_in_snapshot`. -/
def c3WitnessTree : Tree :=
  { nodes :=
      [(0, { nodeType := .dir, path := "", children := [("f", 1)] }),
       (1, { nodeType := .file, path := "f", state := .opModify, parent := some 0,
             deletedInSnapshot := true })],
    nextId := 2 }

/-- Witness tree for the temporary-filter theorem: a genuine file named
`photo1-2-3` (a substring match, not a whole-name match) directly under the
root, with state `Created`. -/
def c10WitnessTree : Tree :=
  { nodes :=
      [(0, { nodeType := .dir, path := "", children := [("photo1-2-3", 1)] }),
       (1, { nodeType := .file, path := "photo1-2-3", state := .opCreate,
             parent := some 0 })],
    nextId := 2 }

/-- Does the parent chain of `id` reach the tree root within `fuel` steps?
(Used to state the amended path-absoluteness claim.) -/
def reachesRoot (t : Tree) : Nat → Nat → Bool
  | 0, _ => false
  | fuel + 1, id =>
    if id = rootId then true
    else
      match (getNode t id).bind (fun n => n.parent) with
      | none => false
      | some p => reachesRoot t fuel p

/-- Witness tree for write coalescing: a root with one file whose last
change is a write of 5 bytes at offset 0. -/
def c7WitnessTree : Tree :=
  { nodes :=
      [(0, { nodeType := .dir, path := "", children := [("f", 1)] }),
       (1, { nodeType := .file, path := "f", state := .opModify, parent := some 0,
             changes := ["write:offset=0:data_len=5"],
             lastDataWrittenOffset := 0, lastDataWrittenLen := 5 })],
    nextId := 2 }

/-- The parent-kind promotion performed at the top of `addNode`. -/
def promoNT (x : NodeType) : NodeType := if x = NodeType.unknown then .dir else x

/-- Witness nodes for the `addNode` replacement branch: the root (node 0)
has a `Deleted` child named `a` (node 1), which itself still has a child
`b` (node 3); node 2 is a parentless new node also named `a`, about to be
attached over node 1. -/
def c6P : DiffNode := { nodeType := .dir, path := "", children := [("a", 1)] }

/-- The `Deleted` child to be replaced. -/
def c6E : DiffNode :=
  { nodeType := .dir, path := "a", state := .opDelete, parent := some 0,
    children := [("b", 3)] }

/-- The new node taking the deleted child's place. -/
def c6N : DiffNode := { nodeType := .file, path := "a" }

/-- The deleted child's own child, to be moved under the new node. -/
def c6C : DiffNode := { nodeType := .file, path := "b", parent := some 1 }

/-- The four-node witness heap for the `addNode` characterization. -/
def c6WitnessTree : Tree :=
  { nodes := [(0, c6P), (1, c6E), (2, c6N), (3, c6C)], nextId := 4 }

/-! ## Theorems -/

/-- C1: the claim states that `validateBTRFSStream` (and hence
`ProcessBTRFSStream`) returns an error on a bad magic header and on a
version word other than 1, and that processing never proceeds to command
decoding in those cases.  The code contradicts this (and its own evident
intent, given its "bad stream magic data" / "unexpected stream version"
error messages): both mismatch paths return `errors.Wrapf(err, ...)` with a
nil `err`, which `pkg/errors` turns into a nil error.  On a stream whose
header is `"nope\x00"` followed by an `END` record, and on a stream with
the correct magic but version 2 followed by an `END` record, validation
reports no error and the processor goes on to decode commands,
returning the empty diff successfully. -/
theorem c1_bad_header_not_rejected :
    (validateBTRFSStream c1BadMagicStream).1 = none ∧
    ProcessBTRFSStream c1BadMagicStream = .ok initTree ∧
    (validateBTRFSStream c1BadVersionStream).1 = none ∧
    ProcessBTRFSStream c1BadVersionStream = .ok initTree :=
  ⟨rfl, rfl, rfl, rfl⟩

/-- C2 counterexample: a stream containing a `UTIMES` command addressed at
path `g` (with `ATIME`/`MTIME`/`CTIME` attributes) leaves the tree
completely untouched — no node is synthesized at `g`, no `utime:` change is
appended anywhere — because `UTIMES` is classified `Ignore` and the loop
skips it before reading a single attribute. -/
theorem c2_counterexample :
    ProcessBTRFSStream c2Stream = .ok initTree ∧
    getNodeByPath c2Result "g" = none ∧
    c2Result = initTree :=
  ⟨rfl, rfl, rfl⟩

/-- C2 (amended): every `UTIMES` command is skipped whole by the processor:
its operation class is `Ignore`, so the loop body returns the tree unchanged
without consuming any attribute; the `UTIMES` handler inside `processModify`
is unreachable from the stream loop. -/
theorem c2_utimes_skipped (fuel : Nat) (t : Tree) (d : List Nat) (ty : Nat)
    (h : ty = BTRFS_SEND_C_UTIMES) :
    stepCommand fuel t ⟨ty, d⟩ = .ok (.cont t) := by
  subst h; rfl

/-- Witness for `c2_utimes_skipped` at a concrete command. -/
theorem c2_utimes_skipped_witness :
    stepCommand 5 initTree ⟨20, [1, 2, 3]⟩ = .ok (.cont initTree) :=
  c2_utimes_skipped 5 initTree [1, 2, 3] 20 rfl

/-- C8: path-attribute asymmetry.  Decoding a `PATH`, `PATH_TO` or
`CLONE_PATH` attribute strips every leading `/` byte: the raw value splits
as a block of leading slashes followed by the decoded result, whose first
byte (if any) is not a slash.  Decoding a `PATH_LINK` attribute returns the
value verbatim. -/
theorem c8_path_attr_asymmetry (b : List Nat) :
    (b = List.replicate (b.takeWhile (fun x => x = 47)).length 47 ++
      b.dropWhile (fun x => x = 47)) ∧
    (∀ h ∈ (b.dropWhile (fun x => x = 47)).head?, h ≠ 47) ∧
    convertAttr BTRFS_SEND_A_PATH b = .path (decodeStr (b.dropWhile (fun x => x = 47))) ∧
    convertAttr BTRFS_SEND_A_PATH_TO b = .path (decodeStr (b.dropWhile (fun x => x = 47))) ∧
    convertAttr BTRFS_SEND_A_CLONE_PATH b = .path (decodeStr (b.dropWhile (fun x => x = 47))) ∧
    convertAttr BTRFS_SEND_A_PATH_LINK b = .pathLink (decodeStr b) := by
  refine ⟨?_, ?_, rfl, rfl, rfl, rfl⟩
  · conv_lhs => rw [← List.takeWhile_append_dropWhile (p := fun x => x = 47) (l := b)]
    congr 1
    apply List.eq_replicate_of_mem
    intro x hx
    have := List.mem_takeWhile_imp hx
    simpa using this
  · intro h hmem hx
    subst hx
    have := List.head?_dropWhile_not (fun x => x = 47) b
    rw [hmem] at this
    simp at this

/-- C3 counterexample: processing `MKFILE a/x; UNLINK a/x; RENAME x -> a/b`
leaves node 3 at `/a/x` with `deleted_in_snapshot = true` and state
`Unspecified`; it is reachable by the traversal, is not a temporary node and
is not ignored, yet the deleted bucket of `GetDiffStruct` does not contain
it, because the `shouldPrintNode` filter runs before the shadow emit and
rejects `Unspecified` states. -/
theorem c3_counterexample :
    ProcessBTRFSStream c3Stream = .ok c3Result ∧
    (getNode c3Result 3).map (fun n => (n.state, n.deletedInSnapshot)) =
      some (.opUnspec, true) ∧
    3 ∈ traverseIds c3Result 20 rootId ∧
    isBTRFSTemporaryNode c3Result 20 3 = false ∧
    GetChainPath c3Result 20 3 = "/a/x" ∧
    3 ∉ (GetDiffStruct c3Result noIgnore 20).deleted :=
  ⟨rfl, rfl, by decide, rfl, rfl, by decide⟩

/-- C4 counterexample: after `MKDIR d/photo1-2-3; MKFILE d/photo1-2-3/x;
UNLINK d/photo1-2-3/x`, the deleted node 3 (`x`) does not stay under its
parent: its parent `photo1-2-3` is a non-root node whose name merely
contains a placeholder-shaped substring, yet the reparenting step fires,
its self-anchored merge removes `x` from the tree entirely, and
`photo1-2-3`'s children map ends up empty. -/
theorem c4_counterexample :
    ProcessBTRFSStream c4Stream = .ok c4Result ∧
    (getNode c4Result 2).map (fun n => (n.path, n.parent, n.children)) =
      some ("photo1-2-3", some 1, []) ∧
    matchesNewNode "photo1-2-3" = true ∧
    isBTRFSTemporaryNode c4Result 20 2 = false ∧
    (getNode c4Result 3).map (fun n => (n.state, n.deletedInSnapshot, n.parent)) =
      some (.opDelete, true, none) ∧
    3 ∉ traverseIds c4Result 20 rootId :=
  ⟨rfl, rfl, rfl, rfl, rfl, by decide⟩

/-- C5 counterexample: after `MKFILE dir/sub; RENAME dir -> newdir`, node 3
(`newdir`) holds the shallow-copied child entry `sub ↦ 2`, but node 2's
parent pointer still names node 1 (`dir`), so the claimed coherence
invariant `child.parent == that node` fails on the final tree, with both
nodes reachable from the root. -/
theorem c5_counterexample :
    ProcessBTRFSStream c5Stream = .ok c5Result ∧
    (getNode c5Result 3).map (fun n => (n.path, lookupA n.children "sub")) =
      some ("newdir", some 2) ∧
    (getNode c5Result 2).map (·.parent) = some (some 1) ∧
    (1 : Nat) ≠ 3 ∧
    2 ∈ traverseIds c5Result 20 rootId ∧
    3 ∈ traverseIds c5Result 20 rootId :=
  ⟨rfl, rfl, rfl, by decide, by decide, by decide⟩

/-- C9 counterexample: processing a `SYMLINK s` whose `PATH_LINK` value is
the relative path `file` (the target not being in the tree) emits the
symlink in the added bucket with a relation whose serialized path is
exactly `file`, which does not begin with `/`. -/
theorem c9_counterexample :
    ProcessBTRFSStream c9Stream = .ok c9Result ∧
    (GetDiffStruct c9Result noIgnore 20).added = [1] ∧
    nodeJSON c9Result 20 1 = ⟨"SYMLINK", "/s", 2, [("file", "LINK_DEST")], []⟩ ∧
    hasPrefixStr "file" "/" = false :=
  ⟨rfl, rfl, rfl, rfl⟩

/-- C10 counterexample: after `UNLINK o1-2-3; REMOVE_XATTR o1-2-3`, node 1
is a temporary node at the root (state `Modified`, `deleted_in_snapshot`
true); it is excluded from every bucket, but the pretty output still
contains its deleted-shadow line, so it is not excluded from the pretty
output as the claim states. -/
theorem c10_counterexample :
    ProcessBTRFSStream c10Stream = .ok c10Result ∧
    isBTRFSTemporaryNode c10Result 20 1 = true ∧
    (getNode c10Result 1).map (fun n => (n.state, n.deletedInSnapshot)) =
      some (.opModify, true) ∧
    GetDiffStruct c10Result noIgnore 20 = ⟨[], [], []⟩ ∧
    printLines c10Result noIgnore 20 = ["=== Tree ===", "[UNKNOWN][deleted] /o1-2-3"] :=
  ⟨rfl, rfl, rfl, rfl, rfl⟩

/-! ### Helper lemmas on the `GetDiffStruct` fold -/

theorem diffStructVisit_deleted_super (t : Tree) (fuel : Nat) (ign : String → Bool)
    (s : DiffJSONStruct) (j x : Nat) (h : x ∈ s.deleted) :
    x ∈ (diffStructVisit t fuel ign s j).deleted := by
  unfold diffStructVisit
  cases hg : getNode t j with
  | none => exact h
  | some n =>
    by_cases h1 : n.state = .opCreate <;>
    by_cases h2 : n.state = .opDelete <;>
    by_cases h3 : n.deletedInSnapshot = true <;>
    by_cases h4 : ign (GetChainPath t fuel j) = true <;>
    by_cases h5 : shouldPrintNode t fuel j = true <;>
    simp_all [List.mem_append]

theorem diffStructVisit_added_src (t : Tree) (fuel : Nat) (ign : String → Bool)
    (s : DiffJSONStruct) (j x : Nat)
    (h : x ∈ (diffStructVisit t fuel ign s j).added) :
    x ∈ s.added ∨ (x = j ∧ shouldPrintNode t fuel j = true) := by
  unfold diffStructVisit at h
  cases hg : getNode t j with
  | none => rw [hg] at h; exact Or.inl h
  | some n =>
    rw [hg] at h
    by_cases h1 : n.state = .opCreate <;>
    by_cases h2 : n.state = .opDelete <;>
    by_cases h3 : n.deletedInSnapshot = true <;>
    by_cases h4 : ign (GetChainPath t fuel j) = true <;>
    by_cases h5 : shouldPrintNode t fuel j = true <;>
    simp_all [List.mem_append]

theorem diffStructVisit_changed_src (t : Tree) (fuel : Nat) (ign : String → Bool)
    (s : DiffJSONStruct) (j x : Nat)
    (h : x ∈ (diffStructVisit t fuel ign s j).changed) :
    x ∈ s.changed ∨ (x = j ∧ shouldPrintNode t fuel j = true) := by
  unfold diffStructVisit at h
  cases hg : getNode t j with
  | none => rw [hg] at h; exact Or.inl h
  | some n =>
    rw [hg] at h
    by_cases h1 : n.state = .opCreate <;>
    by_cases h2 : n.state = .opDelete <;>
    by_cases h3 : n.deletedInSnapshot = true <;>
    by_cases h4 : ign (GetChainPath t fuel j) = true <;>
    by_cases h5 : shouldPrintNode t fuel j = true <;>
    simp_all [List.mem_append]

theorem diffStructVisit_deleted_src (t : Tree) (fuel : Nat) (ign : String → Bool)
    (s : DiffJSONStruct) (j x : Nat)
    (h : x ∈ (diffStructVisit t fuel ign s j).deleted) :
    x ∈ s.deleted ∨ (x = j ∧ shouldPrintNode t fuel j = true) := by
  unfold diffStructVisit at h
  cases hg : getNode t j with
  | none => rw [hg] at h; exact Or.inl h
  | some n =>
    rw [hg] at h
    by_cases h1 : n.state = .opCreate <;>
    by_cases h2 : n.state = .opDelete <;>
    by_cases h3 : n.deletedInSnapshot = true <;>
    by_cases h4 : ign (GetChainPath t fuel j) = true <;>
    by_cases h5 : shouldPrintNode t fuel j = true <;>
    simp_all [List.mem_append]

theorem foldl_diffStruct_deleted_super (t : Tree) (fuel : Nat) (ign : String → Bool)
    (l : List Nat) :
    ∀ (s : DiffJSONStruct) (x : Nat), x ∈ s.deleted →
      x ∈ (l.foldl (diffStructVisit t fuel ign) s).deleted := by
  induction l with
  | nil => intro s x h; exact h
  | cons j rest ih =>
    intro s x h
    exact ih _ x (diffStructVisit_deleted_super t fuel ign s j x h)

theorem foldl_diffStruct_added_src (t : Tree) (fuel : Nat) (ign : String → Bool)
    (l : List Nat) :
    ∀ (s : DiffJSONStruct) (x : Nat),
      x ∈ (l.foldl (diffStructVisit t fuel ign) s).added →
      x ∈ s.added ∨ shouldPrintNode t fuel x = true := by
  induction l with
  | nil => intro s x h; exact Or.inl h
  | cons j rest ih =>
    intro s x h
    rcases ih _ x h with h1 | h1
    · rcases diffStructVisit_added_src t fuel ign s j x h1 with h2 | ⟨rfl, h2⟩
      · exact Or.inl h2
      · exact Or.inr h2
    · exact Or.inr h1

theorem foldl_diffStruct_changed_src (t : Tree) (fuel : Nat) (ign : String → Bool)
    (l : List Nat) :
    ∀ (s : DiffJSONStruct) (x : Nat),
      x ∈ (l.foldl (diffStructVisit t fuel ign) s).changed →
      x ∈ s.changed ∨ shouldPrintNode t fuel x = true := by
  induction l with
  | nil => intro s x h; exact Or.inl h
  | cons j rest ih =>
    intro s x h
    rcases ih _ x h with h1 | h1
    · rcases diffStructVisit_changed_src t fuel ign s j x h1 with h2 | ⟨rfl, h2⟩
      · exact Or.inl h2
      · exact Or.inr h2
    · exact Or.inr h1

theorem foldl_diffStruct_deleted_src (t : Tree) (fuel : Nat) (ign : String → Bool)
    (l : List Nat) :
    ∀ (s : DiffJSONStruct) (x : Nat),
      x ∈ (l.foldl (diffStructVisit t fuel ign) s).deleted →
      x ∈ s.deleted ∨ shouldPrintNode t fuel x = true := by
  induction l with
  | nil => intro s x h; exact Or.inl h
  | cons j rest ih =>
    intro s x h
    rcases ih _ x h with h1 | h1
    · rcases diffStructVisit_deleted_src t fuel ign s j x h1 with h2 | ⟨rfl, h2⟩
      · exact Or.inl h2
      · exact Or.inr h2
    · exact Or.inr h1

theorem diffStructVisit_deleted_self (t : Tree) (fuel : Nat) (ign : String → Bool)
    (s : DiffJSONStruct) (j : Nat) (n : DiffNode)
    (hn : getNode t j = some n)
    (hign : ign (GetChainPath t fuel j) = false)
    (hsp : shouldPrintNode t fuel j = true)
    (hdis : n.deletedInSnapshot = true)
    (hst : n.state ≠ .opDelete) :
    j ∈ (diffStructVisit t fuel ign s j).deleted := by
  unfold diffStructVisit
  rw [hn]
  by_cases h1 : n.state = .opCreate <;>
  simp_all [List.mem_append]

/-- A qualifying node is bucketed into deleted by any fold that visits it. -/
theorem foldl_diffStruct_deleted_mem (t : Tree) (ign : String → Bool) (fuel id : Nat)
    (n : DiffNode) (l : List Nat)
    (hn : getNode t id = some n)
    (hign : ign (GetChainPath t fuel id) = false)
    (hsp : shouldPrintNode t fuel id = true)
    (hdis : n.deletedInSnapshot = true)
    (hst : n.state ≠ .opDelete) :
    ∀ s : DiffJSONStruct, id ∈ l →
      id ∈ (l.foldl (diffStructVisit t fuel ign) s).deleted := by
  induction l with
  | nil => intro s hmem; cases hmem
  | cons j rest ih =>
    intro s hmem
    rcases List.mem_cons.mp hmem with rfl | hmem2
    · exact foldl_diffStruct_deleted_super t fuel ign rest _ id
        (diffStructVisit_deleted_self t fuel ign _ id n hn hign hsp hdis hst)
    · exact ih _ hmem2

/-- C3 (amended): the shadow emit holds only for nodes that pass
`shouldPrintNode`: every node visited by the traversal that is not ignored,
passes `shouldPrintNode` (so its state is `Created` or `Modified` given it
is not `Deleted`), and has `deleted_in_snapshot = true` with state not
`Deleted`, appears in the deleted bucket of `GetDiffStruct`.  Nodes with
state `Unspecified` are excluded from the structured document entirely. -/
theorem c3_shadow_emit (t : Tree) (ign : String → Bool) (fuel id : Nat) (n : DiffNode)
    (hmem : id ∈ traverseIds t fuel rootId)
    (hn : getNode t id = some n)
    (hign : ign (GetChainPath t fuel id) = false)
    (hsp : shouldPrintNode t fuel id = true)
    (hdis : n.deletedInSnapshot = true)
    (hst : n.state ≠ .opDelete) :
    id ∈ (GetDiffStruct t ign fuel).deleted :=
  foldl_diffStruct_deleted_mem t ign fuel id n _ hn hign hsp hdis hst _ hmem

/-- Witness for `c3_shadow_emit` at a concrete tree. -/
theorem c3_shadow_emit_witness :
    1 ∈ (GetDiffStruct c3WitnessTree noIgnore 3).deleted :=
  c3_shadow_emit c3WitnessTree noIgnore 3 1
    { nodeType := .file, path := "f", state := .opModify, parent := some 0,
      deletedInSnapshot := true }
    (by decide) rfl rfl rfl rfl (by decide)

/-- C10 (amended): a node whose parent is the root and whose name merely
contains a substring matching `o\d+-\d+-\d+` is treated as a BTRFS
temporary node and is excluded from every bucket of the structured document
(for every ignore predicate and every fuel), whatever its state; in the
pretty output its state line is suppressed as well, but a deleted-shadow
line is still emitted when `deleted_in_snapshot` holds and the state is not
`Deleted` (see the counterexample). -/
theorem c10_temp_not_in_buckets (t : Tree) (ign : String → Bool) (fuel id : Nat)
    (h : isBTRFSTemporaryNode t fuel id = true) :
    id ∉ (GetDiffStruct t ign fuel).added ∧
    id ∉ (GetDiffStruct t ign fuel).changed ∧
    id ∉ (GetDiffStruct t ign fuel).deleted := by
  have hsp : shouldPrintNode t fuel id = false := by
    unfold shouldPrintNode
    cases hg : getNode t id with
    | none => rfl
    | some n => rw [h]; simp
  refine ⟨fun hmem => ?_, fun hmem => ?_, fun hmem => ?_⟩
  · rcases foldl_diffStruct_added_src t fuel ign _ _ _ hmem with h1 | h1
    · simp at h1
    · rw [hsp] at h1; cases h1
  · rcases foldl_diffStruct_changed_src t fuel ign _ _ _ hmem with h1 | h1
    · simp at h1
    · rw [hsp] at h1; cases h1
  · rcases foldl_diffStruct_deleted_src t fuel ign _ _ _ hmem with h1 | h1
    · simp at h1
    · rw [hsp] at h1; cases h1

/-- Witness for `c10_temp_not_in_buckets` at a concrete tree. -/
theorem c10_temp_not_in_buckets_witness :
    1 ∉ (GetDiffStruct c10WitnessTree noIgnore 3).added ∧
    1 ∉ (GetDiffStruct c10WitnessTree noIgnore 3).changed ∧
    1 ∉ (GetDiffStruct c10WitnessTree noIgnore 3).deleted :=
  c10_temp_not_in_buckets c10WitnessTree noIgnore 3 1 (by decide)

/-! ### Helper lemmas for mutation theorems -/

theorem insertA_insertA {α β : Type} [DecidableEq α] (l : List (α × β)) (a : α) (b c : β) :
    insertA (insertA l a b) a c = insertA l a c := by
  induction l with
  | nil => simp [insertA]
  | cons kv rest ih =>
    obtain ⟨k, v⟩ := kv
    by_cases h : k = a
    · simp [insertA, h]
    · simp [insertA, h, ih]

theorem setNode_setNode (t : Tree) (id : Nat) (a b : DiffNode) :
    setNode (setNode t id a) id b = setNode t id b := by
  simp [setNode, insertA_insertA]

/-- C4 (amended): the reparenting step of `processDelete` is governed only
by whether the deleted node's parent's *name* contains a substring matching
`o\d+-\d+-\d+` — no at-root or whole-name condition is checked.  When the
parent's name has no such substring, the node is merely marked (`Deleted`,
`deleted_in_snapshot`, `Dir` fix for `RMDIR`) and stays exactly where it is;
when the name does contain such a substring the step fires even for a
non-root parent (see the counterexample, where the deleted node is dropped
from the tree rather than staying under its parent). -/
theorem c4_delete_no_reparent (fuel : Nat) (t : Tree) (path : String)
    (origType nid pid : Nat) (n pn : DiffNode)
    (hpath : getNodeByPath t path = some nid)
    (hn : getNode t nid = some n)
    (hpar : n.parent = some pid)
    (hne : pid ≠ nid)
    (hp : getNode t pid = some pn)
    (hregex : matchesNewNode pn.path = false) :
    processDelete fuel t path origType =
      (none, setNode t nid
        { n with
          nodeType :=
            if n.nodeType = NodeType.unknown ∧ origType = BTRFS_SEND_C_RMDIR then .dir
            else n.nodeType
          state := .opDelete
          deletedInSnapshot := true }) := by
  by_cases hc : n.nodeType = NodeType.unknown ∧ origType = BTRFS_SEND_C_RMDIR
  · unfold processDelete
    rw [hpath]
    simp only [modifyNode, hn, getNode_setNode_self, setNode_setNode, if_pos hc,
      getNode_setNode_ne _ _ _ _ (Ne.symm hne), hp, hpar, hregex,
      Bool.false_eq_true, if_false]
  · unfold processDelete
    rw [hpath]
    simp only [modifyNode, hn, getNode_setNode_self, setNode_setNode, if_neg hc,
      getNode_setNode_ne _ _ _ _ (Ne.symm hne), hp, hpar, hregex,
      Bool.false_eq_true, if_false]

/-- Witness tree: root -> `d` -> `x`, where `d` is an ordinary directory. -/
def c4WitnessTree : Tree :=
  { nodes :=
      [(0, { nodeType := .dir, path := "", children := [("d", 1)] }),
       (1, { nodeType := .dir, path := "d", parent := some 0, children := [("x", 2)] }),
       (2, { nodeType := .file, path := "x", parent := some 1 })],
    nextId := 3 }

/-- Witness for `c4_delete_no_reparent` at a concrete tree. -/
theorem c4_delete_no_reparent_witness :
    processDelete 5 c4WitnessTree "d/x" BTRFS_SEND_C_UNLINK =
      (none, setNode c4WitnessTree 2
        { nodeType :=
            if NodeType.file = NodeType.unknown ∧ BTRFS_SEND_C_UNLINK = BTRFS_SEND_C_RMDIR
            then .dir else NodeType.file
          path := "x"
          state := .opDelete
          parent := some 1
          deletedInSnapshot := true }) :=
  c4_delete_no_reparent 5 c4WitnessTree "d/x" BTRFS_SEND_C_UNLINK 2 1
    { nodeType := .file, path := "x", parent := some 1 }
    { nodeType := .dir, path := "d", parent := some 0, children := [("x", 2)] }
    rfl rfl rfl (by decide) rfl rfl

/-- C5 (amended): the mutual parent/child link is established locally by
`addNode`: attaching a parentless node under a parent that has no child of
that name succeeds and leaves `child.parent = parent` and
`parent.children[child.name] = child`.  The global coherence invariant,
however, does not survive `processRenameOrLink`: the shallow child copy
handed to the destination keeps the old parent pointers (see the
counterexample). -/
theorem c5_addNode_mutual (fuel : Nat) (t : Tree) (pid nid : Nat) (p nd : DiffNode)
    (hp : getNode t pid = some p)
    (hn : getNode t nid = some nd)
    (hne : pid ≠ nid)
    (hnopar : nd.parent = none)
    (hfresh : lookupA p.children nd.path = none) :
    ∃ t2, addNode (fuel + 1) t pid nid = (none, t2) ∧
      (getNode t2 nid).map (fun q => q.parent) = some (some pid) ∧
      (getNode t2 pid).map (fun q => lookupA q.children nd.path) = some (some nid) := by
  have hppc :
      (if p.nodeType = NodeType.unknown then { p with nodeType := NodeType.dir } else p).children
        = p.children := by
    split <;> rfl
  refine ⟨setNode
      (setNode (setNode t pid
        (if p.nodeType = NodeType.unknown then { p with nodeType := NodeType.dir } else p))
        nid { nd with parent := some pid })
      pid
      { (if p.nodeType = NodeType.unknown then { p with nodeType := NodeType.dir } else p) with
        children := insertA
          (if p.nodeType = NodeType.unknown then { p with nodeType := NodeType.dir } else p).children
          nd.path nid },
    ?_, ?_, ?_⟩
  · unfold addNode
    rw [hp, hn]
    simp only [hppc, hfresh, hnopar, modifyNode, getNode_setNode_self,
      getNode_setNode_ne _ _ _ _ hne, getNode_setNode_ne _ _ _ _ (Ne.symm hne), hn,
      Bool.false_eq_true, if_false]
  · simp [getNode_setNode_ne _ _ _ _ hne, getNode_setNode_self]
  · simp [getNode_setNode_self, hppc, lookupA_insertA_self]

/-- Witness tree: a root and a detached node `z`. -/
def c5WitnessTree : Tree :=
  { nodes :=
      [(0, { nodeType := .dir, path := "", children := [] }),
       (1, { nodeType := .file, path := "z" })],
    nextId := 2 }

/-- Witness for `c5_addNode_mutual` at a concrete tree. -/
theorem c5_addNode_mutual_witness :
    ∃ t2, addNode 3 c5WitnessTree 0 1 = (none, t2) ∧
      (getNode t2 1).map (fun q => q.parent) = some (some 0) ∧
      (getNode t2 0).map (fun q => lookupA q.children "z") = some (some 1) :=
  c5_addNode_mutual 2 c5WitnessTree 0 1
    { nodeType := .dir, path := "", children := [] }
    { nodeType := .file, path := "z" }
    rfl rfl (by decide) rfl rfl

/-- A string prefix survives appending on the right. -/
theorem hasPrefixStr_append (a b q : String) (h : hasPrefixStr a q = true) :
    hasPrefixStr (a ++ b) q = true := by
  simp only [hasPrefixStr, String.data_append] at *
  exact List.isPrefixOf_iff_prefix.mpr
    ((List.isPrefixOf_iff_prefix.mp h).trans (List.prefix_append _ _))

/-- C9 (amended): every emitted chain path of a non-root node whose parent
chain reaches the root (whose own name is empty) begins with `/`.  The
exception exhibited by the counterexample stands outside this hypothesis:
an orphan symlink target is unattached, so its serialized relation path is
the raw `PATH_LINK` value, which may be relative. -/
theorem c9_paths_absolute (t : Tree) (rn : DiffNode)
    (hroot : getNode t rootId = some rn)
    (hrpath : rn.path = "")
    (hrpar : rn.parent = none) :
    ∀ fuel id, id ≠ rootId → reachesRoot t fuel id = true →
      hasPrefixStr (GetChainPath t fuel id) "/" = true := by
  intro fuel
  induction fuel with
  | zero =>
    intro id hid h
    simp [reachesRoot] at h
  | succ f ih =>
    intro id hid h
    unfold reachesRoot at h
    rw [if_neg hid] at h
    cases hg : getNode t id with
    | none => rw [hg] at h; simp at h
    | some n =>
      rw [hg] at h
      simp only [Option.some_bind] at h
      cases hpar : n.parent with
      | none => rw [hpar] at h; simp at h
      | some pp =>
        rw [hpar] at h
        unfold GetChainPath
        simp only [hg, hpar]
        by_cases hpr : pp = rootId
        · subst hpr
          cases f with
          | zero => simp [reachesRoot] at h
          | succ f2 =>
            unfold GetChainPath
            simp only [hroot, hrpar, hrpath]
            exact hasPrefixStr_append ("" ++ "/") n.path "/" (by decide)
        · exact hasPrefixStr_append _ _ _ (hasPrefixStr_append _ _ _ (ih pp hpr h))

/-- Witness tree: root -> `a` -> `b`. -/
def c9WitnessTree : Tree :=
  { nodes :=
      [(0, { nodeType := .dir, path := "", children := [("a", 1)] }),
       (1, { nodeType := .dir, path := "a", parent := some 0, children := [("b", 2)] }),
       (2, { nodeType := .file, path := "b", parent := some 1 })],
    nextId := 3 }

/-- Witness for `c9_paths_absolute` at a concrete tree. -/
theorem c9_paths_absolute_witness :
    hasPrefixStr (GetChainPath c9WitnessTree 3 2) "/" = true :=
  c9_paths_absolute c9WitnessTree
    { nodeType := .dir, path := "", children := [("a", 1)] }
    rfl rfl rfl 3 2 (by decide) (by decide)

/-! ### Wire-format lemmas used by the write-coalescing theorem -/

theorem leEnc_length (w n : Nat) : (leEnc w n).length = w := by
  induction w generalizing n with
  | zero => rfl
  | succ w ih => simp [leEnc, ih]

theorem leDec_leEnc (w n : Nat) : leDec (leEnc w n) = n % 256 ^ w := by
  induction w generalizing n with
  | zero => simp [leEnc, leDec, Nat.mod_one]
  | succ w ih =>
    rw [pow_succ, mul_comm (256 ^ w) 256, Nat.mod_mul]
    simp [leEnc, leDec, ih]

theorem ReadParam_ok (orig ty : Nat) (v rest : List Nat)
    (hty : ty ≤ BTRFS_SEND_A_MAX_V1) (hv : v.length < 65536) :
    ReadParam ⟨orig, attrBytes ty v ++ rest⟩ ty =
      .ok (convertAttr ty v, ⟨orig, rest⟩) := by
  have hty24 : ty ≤ 24 := hty
  have hA : attrBytes ty v ++ rest = leEnc 2 ty ++ (leEnc 2 v.length ++ (v ++ rest)) := by
    simp [attrBytes, List.append_assoc]
  have hB : attrBytes ty v ++ rest = (leEnc 2 ty ++ leEnc 2 v.length) ++ (v ++ rest) := by
    simp [attrBytes, List.append_assoc]
  have hC : attrBytes ty v ++ rest = ((leEnc 2 ty ++ leEnc 2 v.length) ++ v) ++ rest := by
    simp [attrBytes, List.append_assoc]
  have hlen : (attrBytes ty v ++ rest).length = 4 + v.length + rest.length := by
    simp [attrBytes, leEnc_length]
    omega
  have htake2 : (attrBytes ty v ++ rest).take 2 = leEnc 2 ty := by
    rw [hA]; exact List.take_left' (leEnc_length 2 ty)
  have hdrop2 : (attrBytes ty v ++ rest).drop 2 = leEnc 2 v.length ++ (v ++ rest) := by
    rw [hA]; exact List.drop_left' (leEnc_length 2 ty)
  have htyv : leDec (leEnc 2 ty) = ty := by
    rw [leDec_leEnc]
    exact Nat.mod_eq_of_lt (by omega)
  have hmax : ¬ BTRFS_SEND_A_MAX_V1 < ty := by
    unfold BTRFS_SEND_A_MAX_V1
    omega
  have hlenv : leDec (leEnc 2 v.length) = v.length := by
    rw [leDec_leEnc]
    exact Nat.mod_eq_of_lt (by omega)
  have hdrop4 : (attrBytes ty v ++ rest).drop 4 = v ++ rest := by
    rw [hB]
    exact List.drop_left' (by simp [leEnc_length])
  have hdropAll : (attrBytes ty v ++ rest).drop (4 + v.length) = rest := by
    rw [hC]
    exact List.drop_left' (by simp [leEnc_length]; omega)
  unfold ReadParam
  simp only [hlen, htake2, hdrop2, htyv, hdrop4, hdropAll]
  rw [if_neg (by omega)]
  rw [if_neg hmax]
  rw [if_neg (by simp)]
  rw [List.take_left' (leEnc_length 2 v.length), hlenv]
  rw [if_neg (by omega)]
  rw [List.take_left' rfl]
  rw [hdropAll]

theorem getLastD_concat_str (cs : List String) (lastc d : String) :
    (cs ++ [lastc]).getLastD d = lastc := by
  simp [List.getLastD_eq_getLast?, List.getLast?_concat]

/-- `applyWrite` in the coalescing case: when the last change is a write and
the transient offset/length fields are contiguous with the incoming offset,
the last descriptor is replaced by the merged one. -/
theorem applyWrite_merge (m : DiffNode) (offset dataLen0 : Nat)
    (cs : List String) (lastc : String)
    (hch : m.changes = cs ++ [lastc])
    (hw : hasPrefixStr lastc "write" = true)
    (hcontig : (m.lastDataWrittenOffset + m.lastDataWrittenLen) % U64MOD = offset) :
    applyWrite m offset dataLen0 =
      { m with
        nodeType := if m.nodeType = NodeType.unknown then .file else m.nodeType
        changes := cs ++
          [mkWrite m.lastDataWrittenOffset ((dataLen0 + m.lastDataWrittenLen) % U64MOD)]
        lastDataWrittenOffset := m.lastDataWrittenOffset
        lastDataWrittenLen := (dataLen0 + m.lastDataWrittenLen) % U64MOD } := by
  unfold applyWrite
  rw [hch, getLastD_concat_str, hw, hcontig]
  simp [List.dropLast_concat]

/-- C7: write coalescing, in the operational form the claim itself gives as
equivalent: when a `WRITE` (or `UPDATE_EXTENT`) command arrives at a node
whose immediately previous change descriptor starts with `"write"` and
whose recorded previous write offset plus length (mod 2^64) equals the new
offset, the previous descriptor is replaced by the single merged descriptor
`write:offset=<prev_offset>:data_len=<prev_len+n>`, and the transient
offset/length fields are updated accordingly. -/
theorem c7_write_coalescing (fuel : Nat) (t : Tree) (path : String) (nid : Nat) (n : DiffNode)
    (offset sz : Nat) (dat : List Nat) (cs : List String) (lastc : String)
    (hpath : getNodeByPath t path = some nid)
    (hn : getNode t nid = some n)
    (hch : n.changes = cs ++ [lastc])
    (hw : hasPrefixStr lastc "write" = true)
    (hcontig : (n.lastDataWrittenOffset + n.lastDataWrittenLen) % U64MOD = offset)
    (hoff : offset < U64MOD)
    (hdat : dat.length < 65536)
    (hsz : sz < U64MOD) :
    processModify fuel t path
        ⟨BTRFS_SEND_C_WRITE,
         attrBytes BTRFS_SEND_A_FILE_OFFSET (leEnc 8 offset) ++
           attrBytes BTRFS_SEND_A_DATA dat⟩ =
      (none, setNode t nid
        { n with
          state := if n.state ≠ Operation.opCreate then .opModify else n.state
          nodeType := if n.nodeType = NodeType.unknown then .file else n.nodeType
          changes := cs ++
            [mkWrite n.lastDataWrittenOffset ((dat.length + n.lastDataWrittenLen) % U64MOD)]
          lastDataWrittenOffset := n.lastDataWrittenOffset
          lastDataWrittenLen := (dat.length + n.lastDataWrittenLen) % U64MOD }) ∧
    processModify fuel t path
        ⟨BTRFS_SEND_C_UPDATE_EXTENT,
         attrBytes BTRFS_SEND_A_FILE_OFFSET (leEnc 8 offset) ++
           attrBytes BTRFS_SEND_A_SIZE (leEnc 8 sz)⟩ =
      (none, setNode t nid
        { n with
          state := if n.state ≠ Operation.opCreate then .opModify else n.state
          nodeType := if n.nodeType = NodeType.unknown then .file else n.nodeType
          changes := cs ++
            [mkWrite n.lastDataWrittenOffset ((sz + n.lastDataWrittenLen) % U64MOD)]
          lastDataWrittenOffset := n.lastDataWrittenOffset
          lastDataWrittenLen := (sz + n.lastDataWrittenLen) % U64MOD }) := by
  have h256 : (256 : Nat) ^ 8 = U64MOD := by decide
  have hconvOff : convertAttr BTRFS_SEND_A_FILE_OFFSET (leEnc 8 offset) = .u64 offset := by
    have : convertAttr BTRFS_SEND_A_FILE_OFFSET (leEnc 8 offset) =
        .u64 (leDec (leEnc 8 offset)) := rfl
    rw [this, leDec_leEnc, h256, Nat.mod_eq_of_lt hoff]
  have hconvSz : convertAttr BTRFS_SEND_A_SIZE (leEnc 8 sz) = .u64 sz := by
    have : convertAttr BTRFS_SEND_A_SIZE (leEnc 8 sz) = .u64 (leDec (leEnc 8 sz)) := rfl
    rw [this, leDec_leEnc, h256, Nat.mod_eq_of_lt hsz]
  have hro1 : ReadParam
      ⟨BTRFS_SEND_C_WRITE,
       attrBytes BTRFS_SEND_A_FILE_OFFSET (leEnc 8 offset) ++
         attrBytes BTRFS_SEND_A_DATA dat⟩ BTRFS_SEND_A_FILE_OFFSET =
      .ok (.u64 offset, ⟨BTRFS_SEND_C_WRITE, attrBytes BTRFS_SEND_A_DATA dat⟩) := by
    rw [ReadParam_ok _ _ _ _ (by decide) (by simp [leEnc_length]), hconvOff]
  have hro2 : ReadParam
      ⟨BTRFS_SEND_C_WRITE, attrBytes BTRFS_SEND_A_DATA dat⟩ BTRFS_SEND_A_DATA =
      .ok (.bytes dat (utf8Valid dat), ⟨BTRFS_SEND_C_WRITE, []⟩) := by
    rw [← List.append_nil (attrBytes BTRFS_SEND_A_DATA dat)]
    rw [ReadParam_ok _ _ _ _ (by decide) hdat]
    rfl
  have hro3 : ReadParam
      ⟨BTRFS_SEND_C_UPDATE_EXTENT,
       attrBytes BTRFS_SEND_A_FILE_OFFSET (leEnc 8 offset) ++
         attrBytes BTRFS_SEND_A_SIZE (leEnc 8 sz)⟩ BTRFS_SEND_A_FILE_OFFSET =
      .ok (.u64 offset, ⟨BTRFS_SEND_C_UPDATE_EXTENT, attrBytes BTRFS_SEND_A_SIZE (leEnc 8 sz)⟩) := by
    rw [ReadParam_ok _ _ _ _ (by decide) (by simp [leEnc_length]), hconvOff]
  have hro4 : ReadParam
      ⟨BTRFS_SEND_C_UPDATE_EXTENT, attrBytes BTRFS_SEND_A_SIZE (leEnc 8 sz)⟩ BTRFS_SEND_A_SIZE =
      .ok (.u64 sz, ⟨BTRFS_SEND_C_UPDATE_EXTENT, []⟩) := by
    rw [← List.append_nil (attrBytes BTRFS_SEND_A_SIZE (leEnc 8 sz))]
    rw [ReadParam_ok _ _ _ _ (by decide) (by simp [leEnc_length]), hconvSz]
  by_cases hstc : n.state = Operation.opCreate
  · have hsf : (if n.state ≠ Operation.opCreate then { n with state := Operation.opModify } else n)
        = n := if_neg (by simp [hstc])
    constructor
    · unfold processModify
      rw [hpath]
      simp only [modifyNode, hn]
      rw [hsf]
      simp only [if_true]
      simp only [hro1, hro2]
      simp only [AttrVal.asU64, AttrVal.asBytes, getNode_setNode_self, setNode_setNode]
      rw [applyWrite_merge n offset dat.length cs lastc hch hw hcontig]
      simp [hstc]
    · unfold processModify
      rw [hpath]
      simp only [modifyNode, hn]
      rw [hsf, if_neg (by decide)]
      simp only [if_true]
      simp only [hro3, hro4]
      simp only [AttrVal.asU64, getNode_setNode_self, setNode_setNode]
      rw [applyWrite_merge n offset sz cs lastc hch hw hcontig]
      simp [hstc]
  · have hsf : (if n.state ≠ Operation.opCreate then { n with state := Operation.opModify } else n)
        = { n with state := Operation.opModify } := if_pos (by simp [hstc])
    constructor
    · unfold processModify
      rw [hpath]
      simp only [modifyNode, hn]
      rw [hsf]
      simp only [if_true]
      simp only [hro1, hro2]
      simp only [AttrVal.asU64, AttrVal.asBytes, getNode_setNode_self, setNode_setNode]
      rw [applyWrite_merge { n with state := Operation.opModify } offset dat.length cs lastc hch hw
        hcontig]
      simp [hstc]
    · unfold processModify
      rw [hpath]
      simp only [modifyNode, hn]
      rw [hsf, if_neg (by decide)]
      simp only [if_true]
      simp only [hro3, hro4]
      simp only [AttrVal.asU64, getNode_setNode_self, setNode_setNode]
      rw [applyWrite_merge { n with state := Operation.opModify } offset sz cs lastc hch hw hcontig]
      simp [hstc]

/-- Witness for `c7_write_coalescing` at a concrete tree: a 3-byte write at
offset 5 merges into `write:offset=0:data_len=8`, and a 7-byte update-extent
at offset 5 merges into `write:offset=0:data_len=12`. -/
theorem c7_write_coalescing_witness :
    processModify 5 c7WitnessTree "f"
        ⟨BTRFS_SEND_C_WRITE,
         attrBytes BTRFS_SEND_A_FILE_OFFSET (leEnc 8 5) ++
           attrBytes BTRFS_SEND_A_DATA [9, 9, 9]⟩ =
      (none, setNode c7WitnessTree 1
        { nodeType := .file, path := "f", state := .opModify, parent := some 0,
          changes := [mkWrite 0 8], lastDataWrittenOffset := 0, lastDataWrittenLen := 8 }) ∧
    processModify 5 c7WitnessTree "f"
        ⟨BTRFS_SEND_C_UPDATE_EXTENT,
         attrBytes BTRFS_SEND_A_FILE_OFFSET (leEnc 8 5) ++
           attrBytes BTRFS_SEND_A_SIZE (leEnc 8 7)⟩ =
      (none, setNode c7WitnessTree 1
        { nodeType := .file, path := "f", state := .opModify, parent := some 0,
          changes := [mkWrite 0 12], lastDataWrittenOffset := 0, lastDataWrittenLen := 12 }) :=
  c7_write_coalescing 5 c7WitnessTree "f" 1
    { nodeType := .file, path := "f", state := .opModify, parent := some 0,
      changes := ["write:offset=0:data_len=5"], lastDataWrittenOffset := 0, lastDataWrittenLen := 5 }
    5 7 [9, 9, 9] [] "write:offset=0:data_len=5"
    rfl rfl rfl (by decide) (by decide) (by decide) (by decide) (by decide)

/-! ### Assoc-list and promotion lemmas for the `addNode` theorems -/

theorem lookupA_append_left_none {α β : Type} [DecidableEq α] (a b : List (α × β)) (x : α)
    (h : lookupA a x = none) : lookupA (a ++ b) x = lookupA b x := by
  induction a with
  | nil => simp
  | cons kv rest ih =>
    obtain ⟨k, v⟩ := kv
    by_cases hk : k = x
    · simp [lookupA, hk] at h
    · simp only [List.cons_append, lookupA_cons, if_neg hk] at *
      exact ih h

theorem insertA_append_fresh {α β : Type} [DecidableEq α] (l : List (α × β)) (k : α) (v : β)
    (h : lookupA l k = none) : insertA l k v = l ++ [(k, v)] := by
  induction l with
  | nil => simp [insertA]
  | cons kv rest ih =>
    obtain ⟨k0, v0⟩ := kv
    by_cases hk : k0 = k
    · simp [lookupA, hk] at h
    · simp only [lookupA_cons, if_neg hk] at h
      simp [insertA, hk, ih h]

theorem promoNT_promoNT (x : NodeType) : promoNT (promoNT x) = promoNT x := by
  unfold promoNT
  split <;> simp_all

theorem promo_eq_promoNT (m : DiffNode) :
    (if m.nodeType = NodeType.unknown then { m with nodeType := NodeType.dir } else m) =
      { m with nodeType := promoNT m.nodeType } := by
  unfold promoNT
  split <;> rfl

/-- The full characterization of `addNode`'s replacement-branch child loop:
each child of the replaced node is moved under the new node, appended after
the new node's own children, with its parent pointer retargeted; the
replaced node ends with no children, and every other node is untouched. -/
theorem mergeChildren_spec :
    ∀ (l : List (String × Nat)) (fuel : Nat) (t : Tree) (nid eid : Nat) (m ec : DiffNode),
    l.length + 1 ≤ fuel →
    nid ≠ eid →
    getNode t nid = some m →
    getNode t eid = some ec →
    ec.children = l →
    (∀ kc ∈ l, ∃ ch : DiffNode, getNode t kc.2 = some ch ∧ ch.parent = some eid ∧
        ch.path = kc.1 ∧ kc.1 ≠ "" ∧ kc.2 ≠ nid ∧ kc.2 ≠ eid) →
    (∀ kc ∈ l, lookupA m.children kc.1 = none) →
    (l.map Prod.fst).Nodup →
    (l.map Prod.snd).Nodup →
    ∃ t2, mergeChildren fuel t l nid = (none, t2) ∧
      getNode t2 nid = some { m with
        nodeType := if l = [] then m.nodeType else promoNT m.nodeType,
        children := m.children ++ l } ∧
      getNode t2 eid = some { ec with children := [] } ∧
      (∀ kc ∈ l, ∃ ch : DiffNode, getNode t kc.2 = some ch ∧
        getNode t2 kc.2 = some { ch with parent := some nid }) ∧
      (∀ x, x ≠ nid → x ≠ eid → x ∉ l.map Prod.snd → getNode t2 x = getNode t x) := by
  intro l
  induction l with
  | nil =>
    intro fuel t nid eid m ec hfuel hne hm hec hch hkids hfresh hkf hvf
    have hec' : ({ ec with children := [] } : DiffNode) = ec := by
      rw [show ([] : List (String × Nat)) = ec.children from hch.symm]
    refine ⟨t, ?_, ?_, ?_, by simp, fun x _ _ _ => rfl⟩
    · cases fuel <;> rfl
    · simpa using hm
    · rw [hec']; exact hec
  | cons kc rest ih =>
    intro fuel t nid eid m ec hfuel hne hm hec hch hkids hfresh hkf hvf
    obtain ⟨k, c⟩ := kc
    have hfuel2 : rest.length + 2 ≤ fuel := by simpa using hfuel
    obtain ⟨fuel1, rfl⟩ : ∃ f, fuel = f + 1 := ⟨fuel - 1, by omega⟩
    obtain ⟨fuel2, rfl⟩ : ∃ f, fuel1 = f + 1 := ⟨fuel1 - 1, by omega⟩
    obtain ⟨ch, hchn, hchpar, hchpath, hkne, hcnid, hceid⟩ := hkids (k, c) (by simp)
    have hcvals : c ∉ rest.map Prod.snd := by
      have := hvf
      simp only [List.map_cons, List.nodup_cons] at this
      exact this.1
    have hkkeys : k ∉ rest.map Prod.fst := by
      have := hkf
      simp only [List.map_cons, List.nodup_cons] at this
      exact this.1
    have hfr : lookupA m.children k = none := hfresh (k, c) (by simp)
    have hstep : addNode (fuel2 + 1) t nid c =
        (none,
          setNode
            (setNode
              (setNode (setNode t nid { m with nodeType := promoNT m.nodeType })
                eid { ec with children := rest })
              c { ch with parent := some nid })
            nid
            { m with
              nodeType := promoNT m.nodeType
              children := m.children ++ [(k, c)] }) := by
      unfold addNode deleteNode
      simp [hm, hchn, promo_eq_promoNT, hchpath, hfr, hchpar, hec, hch, hkne,
        getNode_setNode_ne _ _ _ _ hne,
        getNode_setNode_ne _ _ _ _ (Ne.symm hne),
        getNode_setNode_ne _ _ _ _ (Ne.symm hceid),
        getNode_setNode_ne _ _ _ _ (Ne.symm hcnid),
        getNode_setNode_ne _ _ _ _ hcnid,
        getNode_setNode_ne _ _ _ _ hceid,
        getNode_setNode_self, setNode_setNode, modifyNode, removeA,
        insertA_append_fresh _ _ _ hfr]
    -- names for the post-step heap and records
    set m1 : DiffNode :=
      { m with nodeType := promoNT m.nodeType, children := m.children ++ [(k, c)] } with hm1def
    set T4 : Tree :=
      setNode
        (setNode
          (setNode (setNode t nid { m with nodeType := promoNT m.nodeType })
            eid { ec with children := rest })
          c { ch with parent := some nid })
        nid m1 with hT4def
    have hT4frame : ∀ x, x ≠ nid → x ≠ eid → x ≠ c → getNode T4 x = getNode t x := by
      intro x h1 h2 h3
      rw [hT4def]
      rw [getNode_setNode_ne _ _ _ _ (Ne.symm h1)]
      rw [getNode_setNode_ne _ _ _ _ (Ne.symm h3)]
      rw [getNode_setNode_ne _ _ _ _ (Ne.symm h2)]
      rw [getNode_setNode_ne _ _ _ _ (Ne.symm h1)]
    have hT4nid : getNode T4 nid = some m1 := by
      rw [hT4def, getNode_setNode_self]
    have hT4eid : getNode T4 eid = some { ec with children := rest } := by
      rw [hT4def]
      rw [getNode_setNode_ne _ _ _ _ hne]
      rw [getNode_setNode_ne _ _ _ _ hceid]
      rw [getNode_setNode_self]
    have hT4c : getNode T4 c = some { ch with parent := some nid } := by
      rw [hT4def]
      rw [getNode_setNode_ne _ _ _ _ (Ne.symm hcnid)]
      rw [getNode_setNode_self]
    obtain ⟨t2, hmerge, h1, h2, h3, h4⟩ :=
      ih (fuel2 + 1) T4 nid eid m1 { ec with children := rest } (by omega) hne hT4nid hT4eid
        rfl
        (by
          intro kc2 hmem
          obtain ⟨ch2, hc1, hc2, hc3, hc4, hc5, hc6⟩ := hkids kc2 (List.mem_cons_of_mem _ hmem)
          have hc7 : kc2.2 ≠ c := by
            intro heq
            exact hcvals (heq ▸ List.mem_map_of_mem Prod.snd hmem)
          exact ⟨ch2, by rw [hT4frame kc2.2 hc5 hc6 hc7]; exact hc1, hc2, hc3, hc4, hc5, hc6⟩)
        (by
          intro kc2 hmem
          have hk2 : kc2.1 ≠ k := by
            intro heq
            exact hkkeys (heq ▸ List.mem_map_of_mem Prod.fst hmem)
          rw [hm1def]
          have hfr2 : lookupA m.children kc2.1 = none :=
            hfresh kc2 (List.mem_cons_of_mem _ hmem)
          rw [lookupA_append_left_none _ _ _ hfr2]
          simp [lookupA, Ne.symm hk2])
        ((List.nodup_cons.mp hkf).2)
        ((List.nodup_cons.mp hvf).2)
    refine ⟨t2, ?_, ?_, ?_, ?_, ?_⟩
    · unfold mergeChildren
      rw [hstep]
      exact hmerge
    · rw [h1]
      by_cases hr : rest = [] <;>
        simp [hm1def, hr, promoNT_promoNT, List.append_assoc]
    · exact h2
    · intro kc2 hmem
      rcases List.mem_cons.mp hmem with heq | hmem2
      · subst heq
        refine ⟨ch, hchn, ?_⟩
        rw [h4 c hcnid hceid hcvals]
        exact hT4c
      · obtain ⟨ch2, hc1, hc2⟩ := h3 kc2 hmem2
        have hc7 : kc2.2 ≠ c := by
          intro heq
          exact hcvals (heq ▸ List.mem_map_of_mem Prod.snd hmem2)
        obtain ⟨_, hg1, hg2, hg3, hg4, hg5, hg6⟩ := hkids kc2 (List.mem_cons_of_mem _ hmem2)
        refine ⟨ch2, ?_, hc2⟩
        rw [← hT4frame kc2.2 hg5 hg6 hc7]
        exact hc1
    · intro x hx1 hx2 hx3
      have hx4 : x ≠ c := by
        intro heq
        exact hx3 (by simp [heq])
      have hx5 : x ∉ rest.map Prod.snd := by
        intro hmem
        exact hx3 (by simp [hmem])
      rw [h4 x hx1 hx2 hx5]
      exact hT4frame x hx1 hx2 hx4

theorem lookupA_mem_values {α β : Type} [DecidableEq α] (l : List (α × β)) (k : α) (v : β)
    (h : lookupA l k = some v) : v ∈ l.map Prod.snd := by
  induction l with
  | nil => simp [lookupA] at h
  | cons kv rest ih =>
    obtain ⟨k0, v0⟩ := kv
    by_cases hk : k0 = k
    · simp only [lookupA_cons, if_pos hk, Option.some.injEq] at h
      simp [h]
    · simp only [lookupA_cons, if_neg hk] at h
      simp [ih h]

theorem find?_by_value {β : Type} [DecidableEq β] (l : List (String × β)) (k : String) (v : β)
    (hnodup : (l.map Prod.snd).Nodup) (h : lookupA l k = some v) :
    l.find? (fun kv => kv.2 = v) = some (k, v) := by
  induction l with
  | nil => simp [lookupA] at h
  | cons kv0 rest ih =>
    obtain ⟨k0, v0⟩ := kv0
    simp only [List.map_cons, List.nodup_cons] at hnodup
    by_cases hk : k0 = k
    · subst hk
      have hv0 : v0 = v := by
        rw [lookupA_cons, if_pos rfl] at h
        exact Option.some.inj h
      subst hv0
      simp [List.find?_cons]
    · rw [lookupA_cons, if_neg hk] at h
      have hv : v ∈ rest.map Prod.snd := lookupA_mem_values rest k v h
      have hv0 : v0 ≠ v := fun heq => hnodup.1 (heq ▸ hv)
      simp only [List.find?_cons]
      have hd : (decide (v0 = v)) = false := by simp [hv0]
      rw [hd]
      exact ih hnodup.2 h

/-- C6: `addNode` semantics and atomicity.  Attaching `nid` under `pid`
always promotes an `Unknown` parent kind to `Dir` (visible in both
conclusions).  If the parent already has a child named like the new node
whose state is not `Deleted`, `addNode` fails and the parent's children map
is unchanged (only the kind promotion took place).  If the existing child's
state is `Deleted`, the new node replaces it under the same name, inherits
`deleted_in_snapshot = true`, merges the old child's relations after its
own, receives the old child's children appended after its own (their parent
pointers retargeted by the move loop), and the old child ends detached with
no children.  The well-formedness side conditions describe the heap as the
program maintains it (children point back to their parent, names are unique
and non-empty, ids are distinct). -/
theorem c6_addNode_spec (fuel : Nat) (t : Tree) (pid nid eid : Nat) (p nd e : DiffNode)
    (hp : getNode t pid = some p)
    (hn : getNode t nid = some nd)
    (he : getNode t eid = some e)
    (hex : lookupA p.children nd.path = some eid)
    (hnopar : nd.parent = none)
    (hne1 : pid ≠ nid) (hne2 : pid ≠ eid) (hne3 : eid ≠ nid) :
    (e.state ≠ .opDelete →
      addNode (fuel + 1) t pid nid =
        (some "found existing children node while adding new node",
         setNode t pid { p with nodeType := promoNT p.nodeType })) ∧
    (e.state = .opDelete →
     e.parent = some pid →
     nd.path ≠ "" →
     (p.children.map Prod.snd).Nodup →
     (∀ kc ∈ e.children, ∃ ch : DiffNode, getNode t kc.2 = some ch ∧ ch.parent = some eid ∧
        ch.path = kc.1 ∧ kc.1 ≠ "" ∧ kc.2 ≠ nid ∧ kc.2 ≠ eid ∧ kc.2 ≠ pid) →
     (∀ kc ∈ e.children, lookupA nd.children kc.1 = none) →
     (e.children.map Prod.fst).Nodup →
     (e.children.map Prod.snd).Nodup →
     e.children.length + 1 ≤ fuel →
     ∃ t2, addNode (fuel + 1) t pid nid = (none, t2) ∧
       getNode t2 nid = some
         { nd with
           nodeType := if e.children = [] then nd.nodeType else promoNT nd.nodeType
           parent := some pid
           relations := nd.relations ++ e.relations
           children := nd.children ++ e.children
           deletedInSnapshot := true } ∧
       getNode t2 pid = some
         { p with
           nodeType := promoNT p.nodeType
           children := insertA (removeA p.children nd.path) nd.path nid } ∧
       getNode t2 eid = some { e with parent := none, children := [] }) := by
  constructor
  · intro hdup
    unfold addNode
    simp [hp, hn, promo_eq_promoNT, hex, getNode_setNode_ne _ _ _ _ hne2, he, hdup]
  · intro hdel hepar hpathne hpvals hkids hfresh hkf hvf hfuelm
    have hfind : p.children.find? (fun kv => kv.2 = eid) = some (nd.path, eid) :=
      find?_by_value _ _ _ hpvals hex
    -- the heap after the pre-loop mutations, as addNode builds it
    have ht5nid : getNode
        (setNode
          (setNode
            (setNode (setNode (setNode t pid { p with nodeType := promoNT p.nodeType })
              nid { nd with parent := some pid })
              pid { p with nodeType := promoNT p.nodeType, children := removeA p.children nd.path })
            eid { e with parent := none })
          nid { nd with parent := some pid, relations := nd.relations ++ e.relations })
        nid = some { nd with parent := some pid, relations := nd.relations ++ e.relations } :=
      getNode_setNode_self _ _ _
    have ht5eid : getNode
        (setNode
          (setNode
            (setNode (setNode (setNode t pid { p with nodeType := promoNT p.nodeType })
              nid { nd with parent := some pid })
              pid { p with nodeType := promoNT p.nodeType, children := removeA p.children nd.path })
            eid { e with parent := none })
          nid { nd with parent := some pid, relations := nd.relations ++ e.relations })
        eid = some { e with parent := none } := by
      rw [getNode_setNode_ne _ _ _ _ (Ne.symm hne3), getNode_setNode_self]
    have ht5frame : ∀ x, x ≠ nid → x ≠ eid → x ≠ pid → getNode
        (setNode
          (setNode
            (setNode (setNode (setNode t pid { p with nodeType := promoNT p.nodeType })
              nid { nd with parent := some pid })
              pid { p with nodeType := promoNT p.nodeType, children := removeA p.children nd.path })
            eid { e with parent := none })
          nid { nd with parent := some pid, relations := nd.relations ++ e.relations })
        x = getNode t x := by
      intro x h1 h2 h3
      rw [getNode_setNode_ne _ _ _ _ (Ne.symm h1)]
      rw [getNode_setNode_ne _ _ _ _ (Ne.symm h2)]
      rw [getNode_setNode_ne _ _ _ _ (Ne.symm h3)]
      rw [getNode_setNode_ne _ _ _ _ (Ne.symm h1)]
      rw [getNode_setNode_ne _ _ _ _ (Ne.symm h3)]
    obtain ⟨t6, hmc, h6n, h6e, h6k, h6f⟩ :=
      mergeChildren_spec e.children fuel _ nid eid
        { nd with parent := some pid, relations := nd.relations ++ e.relations }
        { e with parent := none }
        hfuelm (Ne.symm hne3) ht5nid ht5eid rfl
        (by
          intro kc hmem
          obtain ⟨ch, hc1, hc2, hc3, hc4, hc5, hc6, hc7⟩ := hkids kc hmem
          exact ⟨ch, by rw [ht5frame kc.2 hc5 hc6 hc7]; exact hc1, hc2, hc3, hc4, hc5, hc6⟩)
        (by
          intro kc hmem
          exact hfresh kc hmem)
        hkf hvf
    have ht6pid : getNode t6 pid = some
        { p with nodeType := promoNT p.nodeType, children := removeA p.children nd.path } := by
      rw [h6f pid hne1 hne2 (by
        intro hmem
        obtain ⟨kc, hkc, hkc2⟩ := List.mem_map.mp hmem
        obtain ⟨_, _, _, _, _, _, _, hc7⟩ := hkids kc hkc
        exact hc7 hkc2)]
      rw [getNode_setNode_ne _ _ _ _ (Ne.symm hne1),
        getNode_setNode_ne _ _ _ _ (Ne.symm hne2)]
      rw [getNode_setNode_self]
    refine ⟨setNode
        (setNode t6 nid
          { nd with
            nodeType := if e.children = [] then nd.nodeType else promoNT nd.nodeType
            parent := some pid
            relations := nd.relations ++ e.relations
            children := nd.children ++ e.children
            deletedInSnapshot := true })
        pid
        { p with
          nodeType := promoNT p.nodeType
          children := insertA (removeA p.children nd.path) nd.path nid }, ?_, ?_, ?_, ?_⟩
    · have hdup2 : decide (e.state ≠ Operation.opDelete) = false := by simp [hdel]
      unfold addNode removeFromParent deleteNode
      simp [hp, hn, promo_eq_promoNT, hex, hdup2, hnopar, hepar, hpathne, hfind, hmc, h6n,
        ht6pid, he, modifyNode,
        getNode_setNode_ne _ _ _ _ hne1, getNode_setNode_ne _ _ _ _ (Ne.symm hne1),
        getNode_setNode_ne _ _ _ _ hne2, getNode_setNode_ne _ _ _ _ (Ne.symm hne2),
        getNode_setNode_ne _ _ _ _ hne3, getNode_setNode_ne _ _ _ _ (Ne.symm hne3),
        getNode_setNode_self]
    · rw [getNode_setNode_ne _ _ _ _ hne1, getNode_setNode_self]
    · rw [getNode_setNode_self]
    · rw [getNode_setNode_ne _ _ _ _ hne2, getNode_setNode_ne _ _ _ _ (Ne.symm hne3), h6e]

/-- Witness for the `addNode` characterization: on the concrete four-node
heap, attaching node 2 over the `Deleted` node 1 under the root succeeds;
the new node inherits the old child `b`, the merged relations and the
deleted-in-snapshot mark, the root's children map now binds `a` to the new
node, and node 1 ends detached with no children. -/
theorem c6_addNode_spec_witness :
    ∃ t2, addNode 3 c6WitnessTree 0 2 = (none, t2) ∧
      getNode t2 2 = some
        { c6N with
          nodeType := if c6E.children = [] then c6N.nodeType else promoNT c6N.nodeType
          parent := some 0
          relations := c6N.relations ++ c6E.relations
          children := c6N.children ++ c6E.children
          deletedInSnapshot := true } ∧
      getNode t2 0 = some
        { c6P with
          nodeType := promoNT c6P.nodeType
          children := insertA (removeA c6P.children c6N.path) c6N.path 2 } ∧
      getNode t2 1 = some { c6E with parent := none, children := [] } :=
  (c6_addNode_spec 2 c6WitnessTree 0 2 1 c6P c6N c6E rfl rfl rfl rfl rfl
      (by decide) (by decide) (by decide)).2
    rfl rfl (by decide) (by decide)
    (by
      intro kc hmem
      have hkc : kc = ("b", 3) := by simpa [c6E] using hmem
      subst hkc
      exact ⟨c6C, rfl, rfl, rfl, by decide, by decide, by decide, by decide⟩)
    (fun kc _ => rfl)
    (by decide) (by decide) (by decide)

end BtrfsDiff
